import Mathlib

/-!
# O2Physics: chi_c candidate creator, its MC matching, and the HF jet finder task

Shallow embedding of `PWGHF/TableProducer/HFCandidateCreatorChic.cxx` and of
`PWGHF/TableProducer/jetfinderhf.cxx`.

Conventions of the embedding

* Floating-point columns and parameters are carried as exact integers (`Int`): the
  properties below are about which rows are produced and from which inputs, not about
  rounding.
* `std::sqrt` is kept symbolic (`SqrtValue`): it records the radicand, or `nan` when the
  radicand is negative.
* The vertex fitter (`o2::vertexing::DCAFitterN<2>`), the track propagation routines and
  the geometry helpers are external to the file; they are the fields of `Routines`.
* Histogram fills are monitoring side channels and are left out.
-/

namespace O2Physics

/-! ## Data model -/

/-- The type `std::array<float, 3>`. -/
structure Vec3 where
  x : Int
  y : Int
  z : Int
deriving DecidableEq

/-- The type `o2::track::TrackParCov`: a trajectory state with its covariance. -/
structure TrackParCov where
  pos : Vec3
  mom : Vec3
  cov : List Int
  charge : Int
deriving DecidableEq

/-- A row of `aod::BigTracks`. `par` is what `getTrackParCov(track)` builds from the row. -/
structure Track where
  globalIndex : Int
  sign : Int
  par : TrackParCov
deriving DecidableEq

/-- A row of `soa::Join<aod::HfCandProng2, aod::HFSelJpsiCandidate>`.
`index0`, `index1` are the rows the two index columns are bound to
(`index0_as<aod::BigTracks>()`, `index1_as<aod::BigTracks>()`). -/
structure JpsiCand where
  globalIndex : Int
  hfflag : Nat
  xSecondaryVertex : Int
  ySecondaryVertex : Int
  zSecondaryVertex : Int
  px : Int
  py : Int
  pz : Int
  index0 : Track
  index1 : Track
deriving DecidableEq

/-- The column `index0Id` of a J/psi candidate. -/
def JpsiCand.index0Id (c : JpsiCand) : Int := c.index0.globalIndex

/-- The column `index1Id` of a J/psi candidate. -/
def JpsiCand.index1Id (c : JpsiCand) : Int := c.index1.globalIndex

/-- A row of `aod::Collision`; `cov` is the covariance returned by
`getPrimaryVertex(collision).getCov()`. -/
structure Collision where
  globalIndex : Int
  posX : Int
  posY : Int
  posZ : Int
  cov : List Int
deriving DecidableEq

/-- The type `o2::dataformats::DCA`. -/
structure DCA where
  y : Int
  sigmaY2 : Int
deriving DecidableEq

/-- What a `DCAFitterN<2>` exposes after `process(t0, t1)`: the return value (number of
candidates), the PCA candidate, its chi2, its covariance, and the two tracks as
`getTrack(i)` gives them after `propagateTracksToVertex()`. -/
structure FitResult where
  nCand : Int
  pca : Vec3
  chi2 : Int
  cov : List Int
  track0 : TrackParCov
  track1 : TrackParCov
deriving DecidableEq

/-- The type `o2::dataformats::V0`: a track state plus its two prongs. -/
structure V0 where
  track : TrackParCov
  prong0 : TrackParCov
  prong1 : TrackParCov
deriving DecidableEq

/-- Constructor `V0(xyz, pxyz, covxyz, trPos, trNeg, idPos, idNeg)`: the state is set from
the position, momentum and covariance given, the charge is the sum of the prong charges. -/
def V0.build (xyz pxyz : Vec3) (covxyz : List Int) (trPos trNeg : TrackParCov) : V0 :=
  { track := { pos := xyz, mom := pxyz, cov := covxyz, charge := trPos.charge + trNeg.charge }
    prong0 := trPos
    prong1 := trNeg }

/-- Result of `std::sqrt`, kept symbolic: `nan` for a negative argument. -/
inductive SqrtValue where
  | nan : SqrtValue
  | root (radicand : Int) : SqrtValue
deriving DecidableEq

/-- The function `std::sqrt`. -/
def stdSqrt (r : Int) : SqrtValue :=
  if r < 0 then SqrtValue.nan else SqrtValue.root r

/-- A row of `aod::HfCandChicBase`, in the column order of the `rowCandidateBase(...)` call. -/
structure HfCandChicBase where
  collisionId : Int
  posX : Int
  posY : Int
  posZ : Int
  xSecondaryVertex : Int
  ySecondaryVertex : Int
  zSecondaryVertex : Int
  errorDecayLength : SqrtValue
  errorDecayLengthXY : SqrtValue
  chi2PCA : Int
  pxProng0 : Int
  pyProng0 : Int
  pzProng0 : Int
  pxProng1 : Int
  pyProng1 : Int
  pzProng1 : Int
  impactParameter0 : Int
  impactParameter1 : Int
  errorImpactParameter0 : SqrtValue
  errorImpactParameter1 : SqrtValue
  index0Id : Int
  index1Id : Int
  hfflag : Nat
deriving DecidableEq

/-- Configurables and enumerators read by `HFCandidateCreatorChic::process`.
`JpsiToEE` and `ChicToJpsiGamma` are the `DecayType` enumerators of `hf_cand_prong2` and
`hf_cand_chic`; their declarations are outside this file, so they are parameters. -/
structure Config where
  magneticField : Int
  cutYCandMax : Int
  JpsiToEE : Nat
  ChicToJpsiGamma : Nat
deriving DecidableEq

/-- External routines used by `HFCandidateCreatorChic::process`.
* `YJpsi`: rapidity of a J/psi candidate;
* `df2`, `df3`: `process` of the two configured `DCAFitterN<2>` objects;
* `propagateTo`: `TrackParCov::propagateTo(x, bz)`, giving the track afterwards;
* `propagateToDCA`: `propagateToDCA(vtx, bz, &dca)`, giving the track afterwards and the DCA;
* `getPointDirection`: azimuth and polar angle of the line between two points;
* `getRotatedCovMatrixXX`: the XX element of a covariance rotated by two angles. -/
structure Routines where
  YJpsi : JpsiCand → Int
  df2 : TrackParCov → TrackParCov → FitResult
  df3 : TrackParCov → TrackParCov → FitResult
  propagateTo : TrackParCov → Int → Int → TrackParCov
  propagateToDCA : TrackParCov → Collision → Int → TrackParCov × DCA
  getPointDirection : Vec3 → Vec3 → Int × Int
  getRotatedCovMatrixXX : List Int → Int → Int → Int

/-! ## `HFCandidateCreatorChic::process` -/

/-- Record of one `df3.process(trackJpsi, trackParVarPos)` call: the J/psi candidate and
the track of the combination, the two arguments handed to the fitter, and the value
returned. -/
structure FitCall where
  jpsiId : Int
  trackId : Int
  trackJpsi : V0
  trackParVarPos : TrackParCov
  nCand : Int
deriving DecidableEq

/-- Variables live in the loop over tracks: the pseudo-track `trackJpsi` and the array
`pvecJpsi` (both declared outside that loop), the rows filled so far, and the record of the
second-stage fitter calls made so far. -/
structure TrackLoopState where
  trackJpsi : V0
  pvecJpsi : Vec3
  rows : List HfCandChicBase
  calls : List FitCall
deriving DecidableEq

/-- Output of `process`: the rows of `rowCandidateBase` in filling order, and the record
of the second-stage fitter calls in call order. -/
structure Output where
  rows : List HfCandChicBase
  calls : List FitCall
deriving DecidableEq

/-- The row filled for a combination whose second-stage fit returned non-zero (source
lines 158-199): `trackJpsi` and `trackParVarPos` are the two fitter arguments, `fit` is what
the fitter exposes after the call. -/
def candidateRow (E : Routines) (cfg : Config) (collision : Collision) (jpsiId trackId : Int)
    (trackJpsi : V0) (trackParVarPos : TrackParCov) (fit : FitResult) : HfCandChicBase :=
  let ChicsecondaryVertex := fit.pca
  let chi2PCA := fit.chi2
  let covMatrixPCA := fit.cov
  let pvecJpsi := fit.track0.mom
  let pvecPos := fit.track1.mom
  let covMatrixPV := collision.cov
  let impactParameter0 := (E.propagateToDCA trackJpsi.track collision cfg.magneticField).2
  let impactParameter1 := (E.propagateToDCA trackParVarPos collision cfg.magneticField).2
  let angles := E.getPointDirection ⟨collision.posX, collision.posY, collision.posZ⟩
    ChicsecondaryVertex
  let phi := angles.1
  let theta := angles.2
  let errorDecayLength := stdSqrt (E.getRotatedCovMatrixXX covMatrixPV phi theta +
    E.getRotatedCovMatrixXX covMatrixPCA phi theta)
  let errorDecayLengthXY := stdSqrt (E.getRotatedCovMatrixXX covMatrixPV phi 0 +
    E.getRotatedCovMatrixXX covMatrixPCA phi 0)
  let hfFlag := 1 <<< cfg.ChicToJpsiGamma
  { collisionId := collision.globalIndex
    posX := collision.posX
    posY := collision.posY
    posZ := collision.posZ
    xSecondaryVertex := ChicsecondaryVertex.x
    ySecondaryVertex := ChicsecondaryVertex.y
    zSecondaryVertex := ChicsecondaryVertex.z
    errorDecayLength := errorDecayLength
    errorDecayLengthXY := errorDecayLengthXY
    chi2PCA := chi2PCA
    pxProng0 := pvecJpsi.x
    pyProng0 := pvecJpsi.y
    pzProng0 := pvecJpsi.z
    pxProng1 := pvecPos.x
    pyProng1 := pvecPos.y
    pzProng1 := pvecPos.z
    impactParameter0 := impactParameter0.y
    impactParameter1 := impactParameter1.y
    errorImpactParameter0 := stdSqrt impactParameter0.sigmaY2
    errorImpactParameter1 := stdSqrt impactParameter1.sigmaY2
    index0Id := jpsiId
    index1Id := trackId
    hfflag := hfFlag % 2 ^ 8 }

/-- Body of the loop over tracks (source lines 137-205). The call
`trackJpsi.propagateToDCA(primaryVertex, magneticField, &impactParameter0)` acts on the
variable `trackJpsi` itself, which is declared outside this loop. -/
def trackStep (E : Routines) (cfg : Config) (collision : Collision) (jpsiCand : JpsiCand)
    (st : TrackLoopState) (trackPos : Track) : TrackLoopState :=
  if trackPos.sign < 0 then st
  else
    let trackParVarPos := trackPos.par
    let fit := E.df3 st.trackJpsi.track trackParVarPos
    let calls := st.calls ++
      [{ jpsiId := jpsiCand.globalIndex, trackId := trackPos.globalIndex,
         trackJpsi := st.trackJpsi, trackParVarPos := trackParVarPos, nCand := fit.nCand }]
    if fit.nCand = 0 then { st with calls := calls }
    else
      let row := candidateRow E cfg collision jpsiCand.globalIndex trackPos.globalIndex
        st.trackJpsi trackParVarPos fit
      { trackJpsi :=
          { st.trackJpsi with
            track := (E.propagateToDCA st.trackJpsi.track collision cfg.magneticField).1 }
        pvecJpsi := fit.track0.mom
        rows := st.rows ++ [row]
        calls := calls }

/-- The pseudo-track built for a J/psi candidate (source lines 111-127), given the result
of the first-stage fit of its two prongs. -/
def buildTrackJpsi (E : Routines) (cfg : Config) (jpsiCand : JpsiCand) (fit2 : FitResult) : V0 :=
  let vertexJpsi : Vec3 :=
    ⟨jpsiCand.xSecondaryVertex, jpsiCand.ySecondaryVertex, jpsiCand.zSecondaryVertex⟩
  let pvecJpsi : Vec3 := ⟨jpsiCand.px, jpsiCand.py, jpsiCand.pz⟩
  let prong0TrackParCov :=
    E.propagateTo jpsiCand.index0.par jpsiCand.xSecondaryVertex cfg.magneticField
  let prong1TrackParCov :=
    E.propagateTo jpsiCand.index1.par jpsiCand.xSecondaryVertex cfg.magneticField
  let covJpsi := fit2.cov
  V0.build vertexJpsi pvecJpsi covJpsi prong0TrackParCov prong1TrackParCov

/-- Body of the loop over J/psi candidates (source lines 100-207). -/
def jpsiStep (E : Routines) (cfg : Config) (collision : Collision) (tracks : List Track)
    (out : Output) (jpsiCand : JpsiCand) : Output :=
  if jpsiCand.hfflag &&& (1 <<< cfg.JpsiToEE) = 0 then out
  else if cfg.cutYCandMax ≥ 0 ∧ |E.YJpsi jpsiCand| > cfg.cutYCandMax then out
  else
    let pvecJpsi : Vec3 := ⟨jpsiCand.px, jpsiCand.py, jpsiCand.pz⟩
    let fit2 := E.df2 jpsiCand.index0.par jpsiCand.index1.par
    if fit2.nCand = 0 then out
    else
      let trackJpsi := buildTrackJpsi E cfg jpsiCand fit2
      let st := tracks.foldl (trackStep E cfg collision jpsiCand)
        { trackJpsi := trackJpsi, pvecJpsi := pvecJpsi, rows := out.rows, calls := out.calls }
      { rows := st.rows, calls := st.calls }

/-- The whole of `HFCandidateCreatorChic::process`, with the record of the fitter calls. -/
def processRun (E : Routines) (cfg : Config) (collision : Collision)
    (jpsiCands : List JpsiCand) (tracks : List Track) : Output :=
  jpsiCands.foldl (jpsiStep E cfg collision tracks) { rows := [], calls := [] }

/-- The rows `HFCandidateCreatorChic::process` fills into `rowCandidateBase`. -/
def HFCandidateCreatorChic.process (E : Routines) (cfg : Config) (collision : Collision)
    (jpsiCands : List JpsiCand) (tracks : List Track) : List HfCandChicBase :=
  (processRun E cfg collision jpsiCands tracks).rows

/-! ## Eligibility, in the words of the specification -/

/-- A trajectory is eligible as second constituent when `sign() >= 0`. -/
def eligibleTrack (t : Track) : Bool := decide (0 ≤ t.sign)

/-- A J/psi composite is eligible when its `hfflag` has the `JpsiToEE` bit set, the
rapidity cut is disabled (`cutYCandMax < 0`) or `|y| <= cutYCandMax`, and the first-stage
re-fit of its two prongs returns non-zero. -/
def eligibleJpsi (E : Routines) (cfg : Config) (c : JpsiCand) : Bool :=
  c.hfflag.testBit cfg.JpsiToEE &&
  (decide (cfg.cutYCandMax < 0) || decide (|E.YJpsi c| ≤ cfg.cutYCandMax)) &&
  decide ((E.df2 c.index0.par c.index1.par).nCand ≠ 0)

/-- The (composite, trajectory) identifier pairs of all eligible combinations, composites
outermost, both in table order. -/
def eligiblePairs (E : Routines) (cfg : Config) (jpsiCands : List JpsiCand)
    (tracks : List Track) : List (Int × Int) :=
  (jpsiCands.filter (eligibleJpsi E cfg)).flatMap
    (fun c => (tracks.filter eligibleTrack).map (fun t => (c.globalIndex, t.globalIndex)))

/-- Identifier pair stored in a candidate row. -/
def HfCandChicBase.ids (r : HfCandChicBase) : Int × Int := (r.index0Id, r.index1Id)

/-- Identifier pair of a recorded fitter call. -/
def FitCall.ids (c : FitCall) : Int × Int := (c.jpsiId, c.trackId)

/-- Whether a recorded fitter call returned non-zero. -/
def FitCall.ok (c : FitCall) : Bool := decide (c.nCand ≠ 0)

/-- The row that belongs to a recorded fitter call: the row built from the arguments of
the call and from what the fitter exposes on them. -/
def rowOfCall (E : Routines) (cfg : Config) (collision : Collision) (c : FitCall) :
    HfCandChicBase :=
  candidateRow E cfg collision c.jpsiId c.trackId c.trackJpsi c.trackParVarPos
    (E.df3 c.trackJpsi.track c.trackParVarPos)

/-- The two summed rotated covariance terms of a recorded fitter call (source lines
180-182): the argument of `std::sqrt` for `errorDecayLength` and for `errorDecayLengthXY`. -/
def covTerms (E : Routines) (collision : Collision) (c : FitCall) : Int × Int :=
  let fit := E.df3 c.trackJpsi.track c.trackParVarPos
  let angles := E.getPointDirection ⟨collision.posX, collision.posY, collision.posZ⟩ fit.pca
  (E.getRotatedCovMatrixXX collision.cov angles.1 angles.2 +
      E.getRotatedCovMatrixXX fit.cov angles.1 angles.2,
    E.getRotatedCovMatrixXX collision.cov angles.1 0 +
      E.getRotatedCovMatrixXX fit.cov angles.1 0)

/-- The external routines with what the first-stage fitter exposes besides its return value
and covariance (PCA position, chi2, propagated prongs) replaced. -/
def Routines.withFirstFitKinematics (E : Routines) (pca : TrackParCov → TrackParCov → Vec3)
    (chi2 : TrackParCov → TrackParCov → Int)
    (track0 track1 : TrackParCov → TrackParCov → TrackParCov) : Routines :=
  { E with
    df2 := fun a b =>
      { E.df2 a b with
        pca := pca a b, chi2 := chi2 a b, track0 := track0 a b, track1 := track1 a b } }

/-! ## `HFCandidateCreatorChicMC::process` -/

/-- ROOT particle code `kPiPlus`. -/
def kPiPlus : Int := 211

/-- ROOT particle code `kElectron`. -/
def kElectron : Int := 11

/-- Conversion of an `int` to `int8_t`. -/
def toInt8 (v : Int) : Int := (v + 128) % 256 - 128

/-- Modelled from the spec: the row type of `aod::McParticles` is declared outside the
file. A generated particle has a type code, a mother link and daughter links into the table
of generated particles. -/
structure McParticle where
  pdgCode : Int
  mother : Option Nat
  daughters : List Nat
deriving DecidableEq

/-- A row of `aod::BigTracksMC`. -/
structure TrackMC where
  globalIndex : Int
  mcParticleId : Int
deriving DecidableEq

/-- A row of `aod::HfCandProng2` as read by the MC matching: its two daughter tracks. -/
structure Prong2MC where
  index0 : TrackMC
  index1 : TrackMC
deriving DecidableEq

/-- A row of `aod::HfCandChic` as read by the MC matching: the J/psi candidate (`index0`)
and the additional track (`index1`). -/
structure HfCandChic where
  index0 : Prong2MC
  index1 : TrackMC
deriving DecidableEq

/-- A row of `rowMCMatchRec` or `rowMCMatchGen`. -/
structure MatchRow where
  flag : Int
  origin : Int
  channel : Int
deriving DecidableEq

/-- Enumerators read by the MC matching; their declarations are outside this file, so they
are parameters: `ChicToJpsiGamma` (`hf_cand_chic::DecayType`), `Prompt` and `NonPrompt`
(`OriginType`). -/
structure MCConfig where
  ChicToJpsiGamma : Nat
  Prompt : Int
  NonPrompt : Int
deriving DecidableEq

/-- The `RecoDecay` routines called by the MC matching, with particles passed by index.
* `getMatchedMCRec particlesMC arrayDaughters pdg arrPdgDaughters acceptAnti depthMax`
  gives the returned index and the value written to `sign`;
* `isMatchedMCGen particlesMC particle pdg arrPdgDaughters acceptAnti`;
* `getDaughters particlesMC particle arrPdgFinal depthMax` gives the indices appended to
  the list;
* `getMother particlesMC particle pdgMother acceptAnti` gives the returned index. -/
structure RecoDecay where
  getMatchedMCRec : List McParticle → List TrackMC → Int → List Int → Bool → Int → Int × Int
  isMatchedMCGen : List McParticle → Int → Int → List Int → Bool → Bool
  getDaughters : List McParticle → Int → List Int → Int → List Int
  getMother : List McParticle → Int → Int → Bool → Int

/-- The local variables declared at the top of `process` (source lines 228-232). -/
structure Vars where
  indexRec : Int
  sign : Int
  flag : Int
  origin : Int
  channel : Int
deriving DecidableEq

/-- Values of the local variables at their declaration. -/
def Vars.init : Vars := { indexRec := -1, sign := 0, flag := 0, origin := 0, channel := 0 }

/-- The row `(flag, origin, channel)` filled from the local variables. -/
def Vars.row (v : Vars) : MatchRow := { flag := v.flag, origin := v.origin, channel := v.channel }

/-- State of `process`: the local variables and the two output tables. -/
structure MCState where
  vars : Vars
  rowsRec : List MatchRow
  rowsGen : List MatchRow
deriving DecidableEq

/-- The array `arrayDaughters` of a candidate (source lines 240-244). -/
def arrayDaughters (candidate : HfCandChic) : List TrackMC :=
  let jpsiTrack := candidate.index0
  [candidate.index1, jpsiTrack.index0, jpsiTrack.index1]

/-- Body of the loop over reconstructed candidates up to the row fill (source lines
237-257), acting on the local variables. -/
def recBody (R : RecoDecay) (cfg : MCConfig) (particlesMC : List McParticle) (v : Vars)
    (candidate : HfCandChic) : Vars :=
  let v := { v with flag := 0, origin := 0, channel := 0 }
  let m := R.getMatchedMCRec particlesMC (arrayDaughters candidate) 20443
    [kPiPlus, kElectron, -kElectron] true 2
  let v := { v with indexRec := m.1, sign := m.2 }
  let v := if v.indexRec > -1 then { v with flag := toInt8 (1 <<< cfg.ChicToJpsiGamma) } else v
  if v.flag ≠ 0 then
    let particle := v.indexRec
    let originType :=
      if R.getMother particlesMC particle 5 true > -1 then cfg.NonPrompt else cfg.Prompt
    { v with origin := toInt8 originType }
  else v

/-- One iteration of the loop over reconstructed candidates (source lines 235-260). -/
def recStep (R : RecoDecay) (cfg : MCConfig) (particlesMC : List McParticle) (st : MCState)
    (candidate : HfCandChic) : MCState :=
  let v := recBody R cfg particlesMC st.vars candidate
  { st with vars := v, rowsRec := st.rowsRec ++ [v.row] }

/-- Body of the loop over generated particles up to the row fill (source lines 265-284),
acting on the local variables. The result is `none` when `arrDaughter[0]` is read from an
empty vector. -/
def genBody (R : RecoDecay) (cfg : MCConfig) (particlesMC : List McParticle) (v : Vars)
    (particle : Int) : Option Vars :=
  let v := { v with flag := 0, origin := 0, channel := 0 }
  let matched : Option Vars :=
    if R.isMatchedMCGen particlesMC particle 20443 [443, kPiPlus] true then
      let arrDaughter := R.getDaughters particlesMC particle [443] 1
      match arrDaughter[0]? with
      | none => none
      | some jpsiCandMC =>
        if R.isMatchedMCGen particlesMC jpsiCandMC 443 [kElectron, -kElectron] true then
          some { v with flag := toInt8 (1 <<< cfg.ChicToJpsiGamma) }
        else some v
    else some v
  matched.map fun v =>
    if v.flag ≠ 0 then
      let originType :=
        if R.getMother particlesMC particle 5 true > -1 then cfg.NonPrompt else cfg.Prompt
      { v with origin := toInt8 originType }
    else v

/-- One iteration of the loop over generated particles (source lines 263-287). -/
def genStep (R : RecoDecay) (cfg : MCConfig) (particlesMC : List McParticle) (st : MCState)
    (particle : Int) : Option MCState :=
  (genBody R cfg particlesMC st.vars particle).map fun v =>
    { st with vars := v, rowsGen := st.rowsGen ++ [v.row] }

/-- The loop over reconstructed candidates, from the start of `process`. -/
def matchRec (R : RecoDecay) (cfg : MCConfig) (candidates : List HfCandChic)
    (particlesMC : List McParticle) : MCState :=
  candidates.foldl (recStep R cfg particlesMC) { vars := Vars.init, rowsRec := [], rowsGen := [] }

/-- The iterators of the table of generated particles, in table order. -/
def particleIndices (particlesMC : List McParticle) : List Int :=
  (List.range particlesMC.length).map Int.ofNat

/-- The whole of `HFCandidateCreatorChicMC::process`: the loop over the reconstructed
candidates, then the loop over the generated particles. -/
def HFCandidateCreatorChicMC.process (R : RecoDecay) (cfg : MCConfig) (candidates : List HfCandChic)
    (particlesMC : List McParticle) : Option MCState :=
  (particleIndices particlesMC).foldlM (genStep R cfg particlesMC)
    (matchRec R cfg candidates particlesMC)

/-! ## The matching routines, from the specification -/

/-- The generated particle at an index, if the index is in the table. -/
def particleAt (ps : List McParticle) (i : Int) : Option McParticle :=
  if 0 ≤ i then ps[i.toNat]? else none

/-- Type code of the particle at an identifier; 0 when the identifier is not in the table. -/
def pdgAt (ps : List McParticle) (i : Nat) : Int :=
  match ps[i]? with
  | some p => p.pdgCode
  | none => 0

/-- Type codes of the declared daughters of a particle. -/
def daughterCodes (ps : List McParticle) (i : Int) : List Int :=
  match particleAt ps i with
  | some p => p.daughters.map (pdgAt ps)
  | none => []

/-- Modelled from the spec: `RecoDecay::isMatchedMCGen` is not part of the file. The
generated-side test is whether the particle has the expected type code and its declared
daughters match the expected type signature as an unordered collection; with
`acceptAntiParticles` the charge-conjugate particle with the charge-conjugate signature is
accepted too. -/
def isMatchedMCGen (ps : List McParticle) (particle : Int) (pdgParticle : Int)
    (arrPdgDaughters : List Int) (acceptAntiParticles : Bool) : Bool :=
  match particleAt ps particle with
  | none => false
  | some p =>
    (p.pdgCode == pdgParticle && (daughterCodes ps particle).isPerm arrPdgDaughters) ||
    (acceptAntiParticles && p.pdgCode == -pdgParticle &&
      (daughterCodes ps particle).isPerm (arrPdgDaughters.map fun c => -c))

/-- Identifiers of the descendants of a particle down to `n` generations, a daughter before
its own descendants. -/
def descendants (ps : List McParticle) : Nat → Nat → List Nat
  | 0, _ => []
  | n + 1, i =>
    match ps[i]? with
    | none => []
    | some p => p.daughters.flatMap fun d => d :: descendants ps n d

/-- Modelled from the spec: `RecoDecay::getDaughters` is not part of the file. The matcher
recurses one level into the intermediate composite: the call selects, among the daughters of
the particle down to `depthMax` generations, those whose type code is one of the codes
given, up to charge conjugation. -/
def getDaughters (ps : List McParticle) (particle : Int) (arrPdgFinal : List Int)
    (depthMax : Int) : List Int :=
  if 0 ≤ particle then
    ((descendants ps depthMax.toNat particle.toNat).filter fun d =>
      arrPdgFinal.any fun c => (pdgAt ps d).natAbs == c.natAbs).map Int.ofNat
  else []

/-- Walk up the mother links from particle `i`, at most `n` generations, looking for the
type code `pdgMother`; gives the index of the first ancestor found, or -1. -/
def motherWithin (ps : List McParticle) (pdgMother : Int) (acceptAntiParticles : Bool) :
    Nat → Nat → Int
  | 0, _ => -1
  | n + 1, i =>
    match ps[i]? with
    | none => -1
    | some p =>
      match p.mother with
      | none => -1
      | some m =>
        if pdgAt ps m = pdgMother ∨ (acceptAntiParticles = true ∧ pdgAt ps m = -pdgMother) then
          (m : Int)
        else motherWithin ps pdgMother acceptAntiParticles n m

/-- Modelled from the spec: `RecoDecay::getMother` is not part of the file. The ancestry
chain is walked upward, up to a bounded number of generations (`maxGenerations`, the bound
of the routine, not passed at the call), looking for an ancestor of the type code given;
the result is its index, or -1 when there is none within the bound. -/
def getMother (maxGenerations : Nat) (ps : List McParticle) (particle : Int) (pdgMother : Int)
    (acceptAntiParticles : Bool) : Int :=
  if 0 ≤ particle then motherWithin ps pdgMother acceptAntiParticles maxGenerations particle.toNat
  else -1

/-- The matching routines of the specification, around a given reconstructed-side matcher. -/
def specRecoDecay (maxGenerations : Nat)
    (getMatchedMCRec : List McParticle → List TrackMC → Int → List Int → Bool → Int → Int × Int) :
    RecoDecay where
  getMatchedMCRec := getMatchedMCRec
  isMatchedMCGen := isMatchedMCGen
  getDaughters := getDaughters
  getMother := getMother maxGenerations

/-- The index returned by `RecoDecay::getMatchedMCRec` for a candidate, at the call of
source line 248. -/
def matchIndex (R : RecoDecay) (particlesMC : List McParticle) (candidate : HfCandChic) : Int :=
  (R.getMatchedMCRec particlesMC (arrayDaughters candidate) 20443
    [kPiPlus, kElectron, -kElectron] true 2).1

/-- The origin assigned to a matched particle (source lines 256 and 283). -/
def originOf (R : RecoDecay) (cfg : MCConfig) (particlesMC : List McParticle) (particle : Int) :
    Int :=
  toInt8 (if R.getMother particlesMC particle 5 true > -1 then cfg.NonPrompt else cfg.Prompt)

/-- The rows of `rowMCMatchGen`, one entry per generated particle in table order, each the
row of the loop body run on that particle alone from the initial values of the variables
(`none` where the body reads `arrDaughter[0]` from an empty vector). -/
def genRowsAlone (R : RecoDecay) (cfg : MCConfig) (particlesMC : List McParticle) :
    List (Option MatchRow) :=
  (particleIndices particlesMC).map fun i =>
    (genBody R cfg particlesMC Vars.init i).map Vars.row

/-! ## The expected chain and the ancestry, in the words of the specification -/

/-- A J/psi (443, or its conjugate code) whose declared daughters are an electron and a
positron, in either order. -/
def isJpsiToEE (ps : List McParticle) (j : Nat) : Bool :=
  match ps[j]? with
  | none => false
  | some q =>
    (q.pdgCode == 443 || q.pdgCode == -443) &&
    match q.daughters with
    | [e1, e2] =>
      (pdgAt ps e1 == 11 && pdgAt ps e2 == -11) || (pdgAt ps e1 == -11 && pdgAt ps e2 == 11)
    | _ => false

/-- Root of the expected chain: a chi_c (20443) whose declared daughters are a J/psi (443)
and a pi+ (211), in either order, the J/psi decaying to an electron and a positron; or the
charge conjugate of that chain. -/
def isChicChainRoot (ps : List McParticle) (i : Nat) : Bool :=
  match ps[i]? with
  | none => false
  | some p =>
    match p.daughters with
    | [a, b] =>
      (p.pdgCode == 20443 &&
        ((pdgAt ps a == 443 && pdgAt ps b == 211 && isJpsiToEE ps a) ||
          (pdgAt ps a == 211 && pdgAt ps b == 443 && isJpsiToEE ps b))) ||
      (p.pdgCode == -20443 &&
        ((pdgAt ps a == -443 && pdgAt ps b == -211 && isJpsiToEE ps a) ||
          (pdgAt ps a == -211 && pdgAt ps b == -443 && isJpsiToEE ps b)))
    | _ => false

/-- The ancestor of particle `i` that is `g` generations up, if the mother links reach
that far. -/
def ancestor (ps : List McParticle) : Nat → Nat → Option Nat
  | 0, i => some i
  | g + 1, i =>
    match ps[i]? with
    | none => none
    | some p =>
      match p.mother with
      | none => none
      | some m => ancestor ps g m

/-- Whether the ancestor `g` generations up exists and is a b quark (5) or its conjugate. -/
def heavyAt (ps : List McParticle) (i g : Nat) : Bool :=
  match ancestor ps g i with
  | some a => pdgAt ps a == 5 || pdgAt ps a == -5
  | none => false

/-- Whether particle `i` has a heavy-flavour ancestor within `n` generations, that is at a
generation from 1 to `n`. -/
def heavyAncestorWithin (ps : List McParticle) (n : Nat) (i : Int) : Bool :=
  decide (0 ≤ i) && (List.range n).any fun g => heavyAt ps i.toNat (g + 1)

/-! ## `JetFinderHFTask::process` -/

/-- Conversion of a 64-bit index to `int`, the argument type of
`fastjet::PseudoJet::set_user_index`. -/
def toInt32 (v : Int) : Int := (v + 2147483648) % 4294967296 - 2147483648

/-- The enumerator `pdgD0` of `JetFinderHFTask::pdgCode`. -/
def pdgD0 : Int := 421

/-- A row of the filtered `aod::Tracks`. -/
structure AodTrack where
  globalIndex : Int
  px : Int
  py : Int
  pz : Int
  p : Int
deriving DecidableEq

/-- A row of the filtered `soa::Join<aod::HfCandProng2, aod::HFSelD0Candidate>`, as read by
the jet finder task. -/
structure D0Cand where
  index0Id : Int
  index1Id : Int
  px : Int
  py : Int
  pz : Int
  isSelD0 : Int
  isSelD0bar : Int
deriving DecidableEq

/-- The type `fastjet::PseudoJet` as an input particle: four-momentum and user index. -/
structure PseudoJet where
  px : Int
  py : Int
  pz : Int
  E : SqrtValue
  user_index : Int
deriving DecidableEq

/-- A clustered jet as read by the task: its kinematic accessors and its constituents. -/
structure Jet where
  eta : Int
  phi : Int
  pt : Int
  area : Int
  E : Int
  m : Int
  constituents : List PseudoJet
deriving DecidableEq

/-- A row of `o2::aod::Jets`, in the column order of the `jetsTable(...)` call. -/
structure JetRow where
  collisionId : Int
  eta : Int
  phi : Int
  pt : Int
  area : Int
  E : Int
  m : Int
  jetR : Int
deriving DecidableEq

/-- The class `JetFinder` as used by the task: the constant `mPion`, the member `jetR`, and
`findJets(inputParticles, jets)` as the jets it leaves in `jets`. -/
structure JetFinder where
  mPion : Int
  jetR : Int
  findJets : List PseudoJet → List Jet

/-- External routines read by the task: `RecoDecay::getMassPDG` and the energy column
`candidate.e(mass)`. -/
structure D0Routines where
  getMassPDG : Int → Int
  e : D0Cand → Int → SqrtValue

/-- State of the task: the members `jets` and `inputParticles`, the two output tables, and
the record of the lists handed to `findJets`, in call order. -/
structure JetTaskState where
  jets : List Jet
  inputParticles : List PseudoJet
  jetsTable : List JetRow
  trackConstituents : List (Int × Int)
  handed : List (List PseudoJet)
deriving DecidableEq

/-- The call `inputParticles.emplace_back(px, py, pz, E)`; a new `PseudoJet` has user
index -1. -/
def emplaceBack (inputParticles : List PseudoJet) (px py pz : Int) (E : SqrtValue) :
    List PseudoJet :=
  inputParticles ++ [{ px := px, py := py, pz := pz, E := E, user_index := -1 }]

/-- The call `inputParticles.back().set_user_index(index)`. -/
def setBackUserIndex (inputParticles : List PseudoJet) (index : Int) : List PseudoJet :=
  match inputParticles.getLast? with
  | none => inputParticles
  | some last => inputParticles.dropLast ++ [{ last with user_index := index }]

/-- Body of the loop over tracks (source lines 87-94). -/
def addTrack (jetFinder : JetFinder) (daughter1Id daughter2Id : Int)
    (inputParticles : List PseudoJet) (track : AodTrack) : List PseudoJet :=
  let energy := stdSqrt (track.p * track.p + jetFinder.mPion * jetFinder.mPion)
  if daughter1Id = track.globalIndex ∨ daughter2Id = track.globalIndex then inputParticles
  else
    setBackUserIndex (emplaceBack inputParticles track.px track.py track.pz energy)
      (toInt32 track.globalIndex)

/-- Whether a constituent carries one of the candidate user indices -1, -2, -3 (source
line 111). -/
def isCandidateConstituent (constituent : PseudoJet) : Bool :=
  decide (constituent.user_index = -1 ∨ constituent.user_index = -2 ∨
    constituent.user_index = -3)

/-- The loop over the jets (source lines 108-130): the first jet with a candidate
constituent fills one row of `jetsTable` and one row of `trackConstituents` per
constituent, and ends the loop. -/
def fillFirstHFJet (jetFinder : JetFinder) (collision : Collision) (st : JetTaskState) :
    JetTaskState :=
  match st.jets.find? (fun jet => jet.constituents.any isCandidateConstituent) with
  | none => st
  | some jet =>
    let jetsTable := st.jetsTable ++
      [{ collisionId := collision.globalIndex, eta := jet.eta, phi := jet.phi, pt := jet.pt,
         area := jet.area, E := jet.E, m := jet.m, jetR := jetFinder.jetR }]
    let lastIndex : Int := (jetsTable.length : Int) - 1
    { st with
      jetsTable := jetsTable
      trackConstituents := st.trackConstituents ++
        jet.constituents.map (fun constituent => (lastIndex, constituent.user_index)) }

/-- Body of the loop over candidates (source lines 82-131). The calls `jets.clear()` and
`inputParticles.clear()` make both members start empty. -/
def candidateStep (jetFinder : JetFinder) (R : D0Routines) (collision : Collision)
    (tracks : List AodTrack) (st : JetTaskState) (candidate : D0Cand) : JetTaskState :=
  let inputParticles : List PseudoJet := []
  let daughter1Id := candidate.index0Id
  let daughter2Id := candidate.index1Id
  let inputParticles := tracks.foldl (addTrack jetFinder daughter1Id daughter2Id) inputParticles
  let inputParticles := emplaceBack inputParticles candidate.px candidate.py candidate.pz
    (R.e candidate (R.getMassPDG pdgD0))
  let inputParticles :=
    if candidate.isSelD0 = 1 ∧ candidate.isSelD0bar = 0 then
      setBackUserIndex inputParticles (-1)
    else if candidate.isSelD0 = 0 ∧ candidate.isSelD0bar = 1 then
      setBackUserIndex inputParticles (-2)
    else
      setBackUserIndex inputParticles (-3)
  let jets := jetFinder.findJets inputParticles
  fillFirstHFJet jetFinder collision
    { st with
      jets := jets
      inputParticles := inputParticles
      handed := st.handed ++ [inputParticles] }

/-- The whole of `JetFinderHFTask::process`, from a given state of the task. -/
def JetFinderHFTask.process (jetFinder : JetFinder) (R : D0Routines) (collision : Collision)
    (tracks : List AodTrack) (candidates : List D0Cand) (st : JetTaskState) : JetTaskState :=
  candidates.foldl (candidateStep jetFinder R collision tracks) st

/-! ## The jet finder input, in the words of the claim -/

/-- User index of the entry of a candidate: -1 for a D0 only, -2 for a D0bar only, -3 in
every other case. -/
def candidateUserIndex (c : D0Cand) : Int :=
  if c.isSelD0 = 1 ∧ c.isSelD0bar = 0 then -1
  else if c.isSelD0 = 0 ∧ c.isSelD0bar = 1 then -2
  else -3

/-- Whether a track is one of the two daughters of a candidate. -/
def isDaughter (c : D0Cand) (t : AodTrack) : Bool :=
  decide (t.globalIndex = c.index0Id ∨ t.globalIndex = c.index1Id)

/-- The entry of a track: its momentum, its energy with the pion mass, and its global index
as user index. -/
def trackEntry (jetFinder : JetFinder) (t : AodTrack) : PseudoJet :=
  { px := t.px, py := t.py, pz := t.pz,
    E := stdSqrt (t.p * t.p + jetFinder.mPion * jetFinder.mPion),
    user_index := t.globalIndex }

/-- The list a candidate is expected to hand to the jet finder: the entries of the tracks
that are not its daughters, in track order, followed by one entry for the candidate. -/
def expectedInput (jetFinder : JetFinder) (R : D0Routines) (tracks : List AodTrack)
    (c : D0Cand) : List PseudoJet :=
  (tracks.filter (fun t => !isDaughter c t)).map (trackEntry jetFinder) ++
    [{ px := c.px, py := c.py, pz := c.pz, E := R.e c (R.getMassPDG pdgD0),
       user_index := candidateUserIndex c }]

/-- Whether an entry carries the global index of one of the daughters of a candidate. -/
def isDaughterEntry (c : D0Cand) (entry : PseudoJet) : Bool :=
  decide (entry.user_index = c.index0Id ∨ entry.user_index = c.index1Id)

/-! ## Example data -/

/-- A toy instance of the external routines: both fitters always report one candidate,
placed at the sum of the two track positions; propagation to a point moves the track there;
the rotated covariance is the first covariance element. -/
def toyRoutines : Routines where
  YJpsi := fun _ => 0
  df2 := fun a b =>
    { nCand := 1, pca := ⟨a.pos.x + b.pos.x, a.pos.y + b.pos.y, a.pos.z + b.pos.z⟩, chi2 := 0,
      cov := [1, 0, 1, 0, 0, 1], track0 := a, track1 := b }
  df3 := fun a b =>
    { nCand := 1, pca := ⟨a.pos.x + b.pos.x, a.pos.y + b.pos.y, a.pos.z + b.pos.z⟩, chi2 := 0,
      cov := [1, 0, 1, 0, 0, 1], track0 := a, track1 := b }
  propagateTo := fun t x _ => { t with pos := { t.pos with x := x } }
  propagateToDCA := fun t v _ =>
    ({ t with pos := ⟨v.posX, v.posY, v.posZ⟩ }, { y := t.pos.y - v.posY, sigmaY2 := 1 })
  getPointDirection := fun _ _ => (0, 0)
  getRotatedCovMatrixXX := fun cov _ _ => cov.headD 0

/-- Example configuration: rapidity cut disabled, `JpsiToEE = 1`, `ChicToJpsiGamma = 0`. -/
def toyConfig : Config :=
  { magneticField := 5, cutYCandMax := -1, JpsiToEE := 1, ChicToJpsiGamma := 0 }

/-- Example collision at the origin. -/
def toyCollision : Collision :=
  { globalIndex := 0, posX := 0, posY := 0, posZ := 0, cov := [1, 0, 1, 0, 0, 1] }

/-- Example collision whose covariance has a negative first element. -/
def toyCollisionNeg : Collision :=
  { globalIndex := 0, posX := 0, posY := 0, posZ := 0, cov := [-5, 0, 1, 0, 0, 1] }

/-- Example track with the given index, charge sign and z position. -/
def toyTrack (i s z : Int) : Track :=
  { globalIndex := i, sign := s,
    par := { pos := ⟨0, 0, z⟩, mom := ⟨0, 0, 1⟩, cov := [1], charge := s } }

/-- Example J/psi candidate built from tracks 0 (positive) and 1 (negative), with stored
secondary vertex (0, 0, 10) and stored momentum (1, 0, 2). -/
def toyJpsi : JpsiCand :=
  { globalIndex := 7, hfflag := 2,
    xSecondaryVertex := 0, ySecondaryVertex := 0, zSecondaryVertex := 10,
    px := 1, py := 0, pz := 2,
    index0 := toyTrack 0 1 3, index1 := toyTrack 1 (-1) 4 }

/-- Example enumerators: `ChicToJpsiGamma = 0`, `Prompt = 1`, `NonPrompt = 2`. -/
def toyMCConfig : MCConfig := { ChicToJpsiGamma := 0, Prompt := 1, NonPrompt := 2 }

/-- Example tree: b quark (0) -> 521 (1) -> 100443 (2) -> chi_c (3) -> J/psi (4) pi+ (5),
J/psi -> e+ (6) e- (7). The b quark is three generations above the chi_c. -/
def toyChain : List McParticle :=
  [{ pdgCode := 5, mother := none, daughters := [1] },
   { pdgCode := 521, mother := some 0, daughters := [2] },
   { pdgCode := 100443, mother := some 1, daughters := [3] },
   { pdgCode := 20443, mother := some 2, daughters := [4, 5] },
   { pdgCode := 443, mother := some 3, daughters := [6, 7] },
   { pdgCode := 211, mother := some 3, daughters := [] },
   { pdgCode := -11, mother := some 4, daughters := [] },
   { pdgCode := 11, mother := some 4, daughters := [] }]

/-- The chain of `toyChain` below the chi_c, with the pi+ replaced by a K+ (321). -/
def toySwapped : List McParticle :=
  [{ pdgCode := 20443, mother := none, daughters := [1, 2] },
   { pdgCode := 443, mother := some 0, daughters := [3, 4] },
   { pdgCode := 321, mother := some 0, daughters := [] },
   { pdgCode := -11, mother := some 1, daughters := [] },
   { pdgCode := 11, mother := some 1, daughters := [] }]

/-- A chain one generation too deep: the chi_c has a single daughter (code 99) which in
turn has the J/psi and the pi+ as daughters. -/
def toyTooDeep : List McParticle :=
  [{ pdgCode := 20443, mother := none, daughters := [1] },
   { pdgCode := 99, mother := some 0, daughters := [2, 3] },
   { pdgCode := 443, mother := some 1, daughters := [4, 5] },
   { pdgCode := 211, mother := some 1, daughters := [] },
   { pdgCode := -11, mother := some 2, daughters := [] },
   { pdgCode := 11, mother := some 2, daughters := [] }]

/-- An unrelated tree: a rho0 (113) decaying to two pions. -/
def toyUnrelated : List McParticle :=
  [{ pdgCode := 113, mother := none, daughters := [1, 2] },
   { pdgCode := 211, mother := some 0, daughters := [] },
   { pdgCode := -211, mother := some 0, daughters := [] }]

/-- Example reconstructed-side matcher: the returned index is the MC label of the first
daughter track. -/
def toyMatchedMCRec : List McParticle → List TrackMC → Int → List Int → Bool → Int → Int × Int :=
  fun _ arr _ _ _ _ =>
    match arr with
    | t :: _ => (t.mcParticleId, 1)
    | [] => (-1, 0)

/-- Example reconstructed candidate whose first daughter track carries the MC label given. -/
def toyCand (label : Int) : HfCandChic :=
  { index0 := { index0 := { globalIndex := 0, mcParticleId := 6 },
                index1 := { globalIndex := 1, mcParticleId := 7 } },
    index1 := { globalIndex := 2, mcParticleId := label } }

/-- Example jet finder: pion mass 0, radius 4, and one jet holding every input particle. -/
def toyJetFinder : JetFinder where
  mPion := 0
  jetR := 4
  findJets := fun l =>
    [{ eta := 0, phi := 0, pt := 1, area := 0, E := 1, m := 0, constituents := l }]

/-- Example candidate routines: every mass is 2, the energy is kept symbolic. -/
def toyD0Routines : D0Routines where
  getMassPDG := fun _ => 2
  e := fun c m => stdSqrt (c.px * c.px + c.py * c.py + c.pz * c.pz + m * m)

/-- Example track with the given global index and momentum 1 along z. -/
def toyAodTrack (i : Int) : AodTrack := { globalIndex := i, px := 0, py := 0, pz := 1, p := 1 }

/-- Example candidate with daughters 1 and 2 and the given selection flags. -/
def toyD0 (isSelD0 isSelD0bar : Int) : D0Cand :=
  { index0Id := 1, index1Id := 2, px := 0, py := 0, pz := 3,
    isSelD0 := isSelD0, isSelD0bar := isSelD0bar }

/-- Example initial state of the task, with a particle left in `inputParticles`. -/
def toyJetState : JetTaskState :=
  { jets := [],
    inputParticles := [{ px := 9, py := 9, pz := 9, E := SqrtValue.nan, user_index := 9 }],
    jetsTable := [], trackConstituents := [], handed := [] }

/-! ## Auxiliary facts about the two loops -/

theorem land_shiftLeft_one_eq_zero_iff (h k : Nat) :
    h &&& (1 <<< k) = 0 ↔ h.testBit k = false := by
  rw [Nat.one_shiftLeft]
  constructor
  · intro hz
    have := congrArg (fun n => n.testBit k) hz
    simpa [Nat.testBit_and, Nat.testBit_two_pow_self] using this
  · intro hb
    apply Nat.eq_of_testBit_eq
    intro i
    by_cases hik : k = i
    · subst hik
      simp [Nat.testBit_and, hb]
    · simp [Nat.testBit_and, Nat.testBit_two_pow, hik]

theorem trackStep_calls_ids (E : Routines) (cfg : Config) (collision : Collision)
    (jpsiCand : JpsiCand) (st : TrackLoopState) (t : Track) :
    (trackStep E cfg collision jpsiCand st t).calls.map FitCall.ids =
      st.calls.map FitCall.ids ++
        (if eligibleTrack t then [(jpsiCand.globalIndex, t.globalIndex)] else []) := by
  unfold trackStep eligibleTrack
  by_cases hs : t.sign < 0
  · have : ¬ (0 ≤ t.sign) := by omega
    simp [hs, this]
  · have : 0 ≤ t.sign := by omega
    by_cases hn : (E.df3 st.trackJpsi.track t.par).nCand = 0 <;>
      simp [hs, this, hn, FitCall.ids]

theorem trackStep_rows (E : Routines) (cfg : Config) (collision : Collision)
    (jpsiCand : JpsiCand) (st : TrackLoopState) (t : Track)
    (hinv : st.rows = (st.calls.filter FitCall.ok).map (rowOfCall E cfg collision)) :
    (trackStep E cfg collision jpsiCand st t).rows =
      ((trackStep E cfg collision jpsiCand st t).calls.filter FitCall.ok).map
        (rowOfCall E cfg collision) := by
  unfold trackStep
  by_cases hs : t.sign < 0
  · simp [hs, hinv]
  · by_cases hn : (E.df3 st.trackJpsi.track t.par).nCand = 0 <;>
      simp [hs, hn, hinv, FitCall.ok, rowOfCall, List.filter_append]

theorem trackLoop_calls_ids (E : Routines) (cfg : Config) (collision : Collision)
    (jpsiCand : JpsiCand) (tracks : List Track) (st : TrackLoopState) :
    (tracks.foldl (trackStep E cfg collision jpsiCand) st).calls.map FitCall.ids =
      st.calls.map FitCall.ids ++
        (tracks.filter eligibleTrack).map (fun t => (jpsiCand.globalIndex, t.globalIndex)) := by
  induction tracks generalizing st with
  | nil => simp
  | cons t ts ih =>
    rw [List.foldl_cons, ih, trackStep_calls_ids]
    by_cases he : eligibleTrack t = true <;> simp [he, List.filter_cons]

theorem trackLoop_rows (E : Routines) (cfg : Config) (collision : Collision)
    (jpsiCand : JpsiCand) (tracks : List Track) (st : TrackLoopState)
    (hinv : st.rows = (st.calls.filter FitCall.ok).map (rowOfCall E cfg collision)) :
    (tracks.foldl (trackStep E cfg collision jpsiCand) st).rows =
      ((tracks.foldl (trackStep E cfg collision jpsiCand) st).calls.filter FitCall.ok).map
        (rowOfCall E cfg collision) := by
  induction tracks generalizing st with
  | nil => simpa using hinv
  | cons t ts ih =>
    rw [List.foldl_cons]
    exact ih _ (trackStep_rows E cfg collision jpsiCand st t hinv)

theorem jpsiStep_calls_ids (E : Routines) (cfg : Config) (collision : Collision)
    (tracks : List Track) (out : Output) (c : JpsiCand) :
    (jpsiStep E cfg collision tracks out c).calls.map FitCall.ids =
      out.calls.map FitCall.ids ++
        (if eligibleJpsi E cfg c then
          (tracks.filter eligibleTrack).map (fun t => (c.globalIndex, t.globalIndex))
        else []) := by
  unfold jpsiStep eligibleJpsi
  by_cases hb : c.hfflag &&& (1 <<< cfg.JpsiToEE) = 0
  · have hb2 := (land_shiftLeft_one_eq_zero_iff _ _).1 hb
    simp [hb, hb2]
  · have hb2 : c.hfflag.testBit cfg.JpsiToEE = true := by
      by_contra hcon
      exact hb ((land_shiftLeft_one_eq_zero_iff _ _).2 (by simpa using hcon))
    by_cases hy : cfg.cutYCandMax ≥ 0 ∧ |E.YJpsi c| > cfg.cutYCandMax
    · have h1 : ¬ cfg.cutYCandMax < 0 := by omega
      have h2 : ¬ |E.YJpsi c| ≤ cfg.cutYCandMax := by omega
      simp [hb, hy, h1, h2]
    · have h3 : cfg.cutYCandMax < 0 ∨ |E.YJpsi c| ≤ cfg.cutYCandMax := by
        by_cases h0 : cfg.cutYCandMax < 0
        · exact Or.inl h0
        · right
          by_contra hcon
          exact hy ⟨by omega, by omega⟩
      by_cases hn : (E.df2 c.index0.par c.index1.par).nCand = 0
      · simp [hb, hy, hn]
      · simp only [hb, hy, hn, if_false, hb2, Bool.true_and]
        rw [trackLoop_calls_ids]
        simp [h3, hn]

theorem jpsiStep_rows (E : Routines) (cfg : Config) (collision : Collision)
    (tracks : List Track) (out : Output) (c : JpsiCand)
    (hinv : out.rows = (out.calls.filter FitCall.ok).map (rowOfCall E cfg collision)) :
    (jpsiStep E cfg collision tracks out c).rows =
      ((jpsiStep E cfg collision tracks out c).calls.filter FitCall.ok).map
        (rowOfCall E cfg collision) := by
  unfold jpsiStep
  by_cases hb : c.hfflag &&& (1 <<< cfg.JpsiToEE) = 0
  · simp [hb, hinv]
  · by_cases hy : cfg.cutYCandMax ≥ 0 ∧ |E.YJpsi c| > cfg.cutYCandMax
    · simp [hb, hy, hinv]
    · by_cases hn : (E.df2 c.index0.par c.index1.par).nCand = 0
      · simp [hb, hy, hn, hinv]
      · simp only [hb, hy, hn, if_false]
        exact trackLoop_rows E cfg collision c tracks _ hinv

theorem jpsiLoop_calls_ids (E : Routines) (cfg : Config) (collision : Collision)
    (tracks : List Track) (jpsiCands : List JpsiCand) (out : Output) :
    (jpsiCands.foldl (jpsiStep E cfg collision tracks) out).calls.map FitCall.ids =
      out.calls.map FitCall.ids ++ eligiblePairs E cfg jpsiCands tracks := by
  induction jpsiCands generalizing out with
  | nil => simp [eligiblePairs]
  | cons c cs ih =>
    rw [List.foldl_cons, ih, jpsiStep_calls_ids]
    by_cases he : eligibleJpsi E cfg c = true <;>
      simp [he, eligiblePairs, List.filter_cons]

theorem jpsiLoop_rows (E : Routines) (cfg : Config) (collision : Collision)
    (tracks : List Track) (jpsiCands : List JpsiCand) (out : Output)
    (hinv : out.rows = (out.calls.filter FitCall.ok).map (rowOfCall E cfg collision)) :
    (jpsiCands.foldl (jpsiStep E cfg collision tracks) out).rows =
      ((jpsiCands.foldl (jpsiStep E cfg collision tracks) out).calls.filter FitCall.ok).map
        (rowOfCall E cfg collision) := by
  induction jpsiCands generalizing out with
  | nil => simpa using hinv
  | cons c cs ih =>
    rw [List.foldl_cons]
    exact ih _ (jpsiStep_rows E cfg collision tracks out c hinv)

/-- The rows of `process` are the rows of the recorded second-stage calls that returned
non-zero, in call order. -/
theorem process_rows_eq (E : Routines) (cfg : Config) (collision : Collision)
    (jpsiCands : List JpsiCand) (tracks : List Track) :
    HFCandidateCreatorChic.process E cfg collision jpsiCands tracks =
      ((processRun E cfg collision jpsiCands tracks).calls.filter FitCall.ok).map
        (rowOfCall E cfg collision) :=
  jpsiLoop_rows E cfg collision tracks jpsiCands { rows := [], calls := [] } (by simp)

theorem rowOfCall_ids (E : Routines) (cfg : Config) (collision : Collision) (c : FitCall) :
    (rowOfCall E cfg collision c).ids = c.ids := rfl

theorem process_ids_eq (E : Routines) (cfg : Config) (collision : Collision)
    (jpsiCands : List JpsiCand) (tracks : List Track) :
    (HFCandidateCreatorChic.process E cfg collision jpsiCands tracks).map HfCandChicBase.ids =
      ((processRun E cfg collision jpsiCands tracks).calls.filter FitCall.ok).map
        FitCall.ids := by
  rw [process_rows_eq, List.map_map]
  rfl

theorem processRun_calls_ids (E : Routines) (cfg : Config) (collision : Collision)
    (jpsiCands : List JpsiCand) (tracks : List Track) :
    (processRun E cfg collision jpsiCands tracks).calls.map FitCall.ids =
      eligiblePairs E cfg jpsiCands tracks := by
  have := jpsiLoop_calls_ids E cfg collision tracks jpsiCands { rows := [], calls := [] }
  simpa [processRun] using this

theorem eligiblePairs_length (E : Routines) (cfg : Config) (jpsiCands : List JpsiCand)
    (tracks : List Track) :
    (eligiblePairs E cfg jpsiCands tracks).length =
      (jpsiCands.filter (eligibleJpsi E cfg)).length * (tracks.filter eligibleTrack).length := by
  unfold eligiblePairs
  induction jpsiCands.filter (eligibleJpsi E cfg) with
  | nil => simp
  | cons c cs ih =>
    simp only [List.flatMap_cons, List.length_append, List.length_map, ih, List.length_cons]
    ring

theorem trackStep_calls_sound (E : Routines) (cfg : Config) (collision : Collision)
    (jpsiCand : JpsiCand) (st : TrackLoopState) (t : Track)
    (hinv : ∀ c ∈ st.calls, c.nCand = (E.df3 c.trackJpsi.track c.trackParVarPos).nCand) :
    ∀ c ∈ (trackStep E cfg collision jpsiCand st t).calls,
      c.nCand = (E.df3 c.trackJpsi.track c.trackParVarPos).nCand := by
  unfold trackStep
  by_cases hs : t.sign < 0
  · simpa [hs] using hinv
  · by_cases hn : (E.df3 st.trackJpsi.track t.par).nCand = 0
    · intro c hc
      simp only [hs, hn, if_false, if_true, List.mem_append, List.mem_singleton] at hc
      rcases hc with hc | hc
      · exact hinv c hc
      · subst hc
        exact hn.symm
    · intro c hc
      simp only [hs, hn, if_false, List.mem_append, List.mem_singleton] at hc
      rcases hc with hc | hc
      · exact hinv c hc
      · subst hc
        rfl

theorem trackLoop_calls_sound (E : Routines) (cfg : Config) (collision : Collision)
    (jpsiCand : JpsiCand) (tracks : List Track) (st : TrackLoopState)
    (hinv : ∀ c ∈ st.calls, c.nCand = (E.df3 c.trackJpsi.track c.trackParVarPos).nCand) :
    ∀ c ∈ (tracks.foldl (trackStep E cfg collision jpsiCand) st).calls,
      c.nCand = (E.df3 c.trackJpsi.track c.trackParVarPos).nCand := by
  induction tracks generalizing st with
  | nil => simpa using hinv
  | cons t ts ih =>
    rw [List.foldl_cons]
    exact ih _ (trackStep_calls_sound E cfg collision jpsiCand st t hinv)

theorem jpsiStep_calls_sound (E : Routines) (cfg : Config) (collision : Collision)
    (tracks : List Track) (out : Output) (c : JpsiCand)
    (hinv : ∀ f ∈ out.calls, f.nCand = (E.df3 f.trackJpsi.track f.trackParVarPos).nCand) :
    ∀ f ∈ (jpsiStep E cfg collision tracks out c).calls,
      f.nCand = (E.df3 f.trackJpsi.track f.trackParVarPos).nCand := by
  unfold jpsiStep
  by_cases hb : c.hfflag &&& (1 <<< cfg.JpsiToEE) = 0
  · simpa [hb] using hinv
  · by_cases hy : cfg.cutYCandMax ≥ 0 ∧ |E.YJpsi c| > cfg.cutYCandMax
    · simpa [hb, hy] using hinv
    · by_cases hn : (E.df2 c.index0.par c.index1.par).nCand = 0
      · simpa [hb, hy, hn] using hinv
      · simp only [hb, hy, hn, if_false]
        exact trackLoop_calls_sound E cfg collision c tracks _ hinv

theorem jpsiLoop_calls_sound (E : Routines) (cfg : Config) (collision : Collision)
    (tracks : List Track) (jpsiCands : List JpsiCand) (out : Output)
    (hinv : ∀ f ∈ out.calls, f.nCand = (E.df3 f.trackJpsi.track f.trackParVarPos).nCand) :
    ∀ f ∈ (jpsiCands.foldl (jpsiStep E cfg collision tracks) out).calls,
      f.nCand = (E.df3 f.trackJpsi.track f.trackParVarPos).nCand := by
  induction jpsiCands generalizing out with
  | nil => simpa using hinv
  | cons c cs ih =>
    rw [List.foldl_cons]
    exact ih _ (jpsiStep_calls_sound E cfg collision tracks out c hinv)

/-! ## Candidate creation: completeness and failure handling -/

/-- C1: if every second-stage fit made during `process` returns non-zero, the number of
candidate rows is N * M, with N the number of eligible J/psi composites and M the number of
eligible trajectories, and the rows are, in order, one per (composite, trajectory) pair:
nothing is deduplicated and nothing is selected. -/
theorem process_emits_every_eligible_combination (E : Routines) (cfg : Config)
    (collision : Collision) (jpsiCands : List JpsiCand) (tracks : List Track)
    (hfit : ∀ c ∈ (processRun E cfg collision jpsiCands tracks).calls, c.nCand ≠ 0) :
    (HFCandidateCreatorChic.process E cfg collision jpsiCands tracks).length =
        (jpsiCands.filter (eligibleJpsi E cfg)).length *
          (tracks.filter eligibleTrack).length ∧
      (HFCandidateCreatorChic.process E cfg collision jpsiCands tracks).map HfCandChicBase.ids =
        eligiblePairs E cfg jpsiCands tracks := by
  have hall : (processRun E cfg collision jpsiCands tracks).calls.filter FitCall.ok =
      (processRun E cfg collision jpsiCands tracks).calls := by
    rw [List.filter_eq_self]
    intro c hc
    simpa [FitCall.ok] using hfit c hc
  have hids : (HFCandidateCreatorChic.process E cfg collision jpsiCands tracks).map HfCandChicBase.ids =
      eligiblePairs E cfg jpsiCands tracks := by
    rw [process_ids_eq, hall, processRun_calls_ids]
  refine ⟨?_, hids⟩
  rw [← eligiblePairs_length, ← hids, List.length_map]

/-- Witness for C1: one eligible composite and two eligible trajectories out of three give
two rows. -/
theorem process_emits_every_eligible_combination_witness :
    (∀ c ∈ (processRun toyRoutines toyConfig toyCollision [toyJpsi]
        [toyTrack 0 1 3, toyTrack 1 (-1) 4, toyTrack 2 1 5]).calls, c.nCand ≠ 0) ∧
    (HFCandidateCreatorChic.process toyRoutines toyConfig toyCollision [toyJpsi]
        [toyTrack 0 1 3, toyTrack 1 (-1) 4, toyTrack 2 1 5]).length = 1 * 2 ∧
    (HFCandidateCreatorChic.process toyRoutines toyConfig toyCollision [toyJpsi]
        [toyTrack 0 1 3, toyTrack 1 (-1) 4, toyTrack 2 1 5]).map HfCandChicBase.ids =
      [(7, 0), (7, 2)] :=
  ⟨by decide,
   process_emits_every_eligible_combination toyRoutines toyConfig toyCollision [toyJpsi]
     [toyTrack 0 1 3, toyTrack 1 (-1) 4, toyTrack 2 1 5] (by decide)⟩

/-- C2: every eligible combination (composite with flag, rapidity and first-stage fit
passed; trajectory with non-negative sign) gets its second-stage fit, whatever earlier fits
returned; the value recorded for a call is the value the fitter returns on the arguments
of that call; and the rows are, in order, exactly the combinations whose second-stage fit
returned non-zero. -/
theorem process_row_iff_second_fit_nonzero (E : Routines) (cfg : Config)
    (collision : Collision) (jpsiCands : List JpsiCand) (tracks : List Track) :
    (processRun E cfg collision jpsiCands tracks).calls.map FitCall.ids =
        eligiblePairs E cfg jpsiCands tracks ∧
      (processRun E cfg collision jpsiCands tracks).calls.map (fun c => c.nCand) =
        (processRun E cfg collision jpsiCands tracks).calls.map
          (fun c => (E.df3 c.trackJpsi.track c.trackParVarPos).nCand) ∧
      (HFCandidateCreatorChic.process E cfg collision jpsiCands tracks).map HfCandChicBase.ids =
        ((processRun E cfg collision jpsiCands tracks).calls.filter FitCall.ok).map
          FitCall.ids := by
  refine ⟨processRun_calls_ids E cfg collision jpsiCands tracks, ?_,
    process_ids_eq E cfg collision jpsiCands tracks⟩
  apply List.map_congr_left
  exact jpsiLoop_calls_sound E cfg collision tracks jpsiCands { rows := [], calls := [] }
    (by simp)

/-! ## Candidate creation: daughter aliasing -/

/-- C3, evaluated on the code: one J/psi candidate (index 7) built from tracks 0 and 1, and
the event tracks 0 (positive) and 1 (negative). A row is filled that pairs the J/psi with
track 0, its own first daughter. -/
theorem process_pairs_jpsi_with_own_daughter :
    toyJpsi.index0Id = 0 ∧
      (HFCandidateCreatorChic.process toyRoutines toyConfig toyCollision [toyJpsi]
        [toyTrack 0 1 3, toyTrack 1 (-1) 4]).map
          (fun r => (r.index0Id, r.index1Id)) = [(toyJpsi.globalIndex, toyJpsi.index0Id)] := by
  decide

/-! ## Candidate creation: decay-length uncertainty -/

/-- C4 as stated fails: a combination whose two summed rotated covariance terms are -4 has
its row filled, with NaN as both decay-length uncertainties. -/
theorem negative_cov_term_row_is_filled :
    (processRun toyRoutines toyConfig toyCollisionNeg [toyJpsi] [toyTrack 2 1 5]).calls.map
        (fun c => (c.ids, covTerms toyRoutines toyCollisionNeg c)) = [((7, 2), (-4, -4))] ∧
      (HFCandidateCreatorChic.process toyRoutines toyConfig toyCollisionNeg [toyJpsi] [toyTrack 2 1 5]).map
        (fun r => (r.ids, r.errorDecayLength, r.errorDecayLengthXY)) =
          [((7, 2), SqrtValue.nan, SqrtValue.nan)] := by
  decide

/-- C4, amended: a row is filled for every combination whose second-stage fit returned
non-zero, whatever the sign of the summed rotated covariance terms, and its two decay-length
uncertainties are `std::sqrt` of those terms, taken without a sign check. -/
theorem decay_length_errors_are_unguarded_sqrt (E : Routines) (cfg : Config)
    (collision : Collision) (jpsiCands : List JpsiCand) (tracks : List Track) :
    (HFCandidateCreatorChic.process E cfg collision jpsiCands tracks).map
        (fun r => (r.ids, r.errorDecayLength, r.errorDecayLengthXY)) =
      ((processRun E cfg collision jpsiCands tracks).calls.filter FitCall.ok).map
        (fun c => (c.ids, stdSqrt (covTerms E collision c).1,
          stdSqrt (covTerms E collision c).2)) := by
  rw [process_rows_eq, List.map_map]
  rfl

/-! ## Candidate creation: the pseudo-track across the track loop -/

/-- C5, evaluated on the code: with tracks 0 and 2 both eligible, the pseudo-track handed
to the fitter for track 2 sits at the primary vertex (0, 0, 0) instead of the rebuilt
position (0, 0, 10), and the row of the pair (7, 2) is not the row obtained when track 2 is
the only track. -/
theorem trackJpsi_changes_across_track_loop :
    (processRun toyRoutines toyConfig toyCollision [toyJpsi]
        [toyTrack 0 1 3, toyTrack 2 1 5]).calls.map
          (fun c => (c.ids, c.trackJpsi.track.pos)) =
        [((7, 0), ⟨0, 0, 10⟩), ((7, 2), ⟨0, 0, 0⟩)] ∧
      (processRun toyRoutines toyConfig toyCollision [toyJpsi] [toyTrack 2 1 5]).calls.map
          (fun c => (c.ids, c.trackJpsi.track.pos)) = [((7, 2), ⟨0, 0, 10⟩)] ∧
      (HFCandidateCreatorChic.process toyRoutines toyConfig toyCollision [toyJpsi]
        [toyTrack 0 1 3, toyTrack 2 1 5]).drop 1 ≠
        HFCandidateCreatorChic.process toyRoutines toyConfig toyCollision [toyJpsi] [toyTrack 2 1 5] := by
  decide

/-! ## Candidate creation: the J/psi pseudo-track -/

theorem trackStep_withFirstFitKinematics (E : Routines) (cfg : Config) (collision : Collision)
    (pca : TrackParCov → TrackParCov → Vec3) (chi2 : TrackParCov → TrackParCov → Int)
    (track0 track1 : TrackParCov → TrackParCov → TrackParCov) (c : JpsiCand) :
    trackStep (E.withFirstFitKinematics pca chi2 track0 track1) cfg collision c =
      trackStep E cfg collision c := rfl

theorem jpsiStep_withFirstFitKinematics (E : Routines) (cfg : Config) (collision : Collision)
    (pca : TrackParCov → TrackParCov → Vec3) (chi2 : TrackParCov → TrackParCov → Int)
    (track0 track1 : TrackParCov → TrackParCov → TrackParCov) (tracks : List Track) :
    jpsiStep (E.withFirstFitKinematics pca chi2 track0 track1) cfg collision tracks =
      jpsiStep E cfg collision tracks := rfl

/-- C10 as stated fails: the re-fit of the two prongs puts the vertex at (0, 0, 7) and the
prongs carry momentum (0, 0, 1) each, but the pseudo-track handed to the second-stage
fitter has the stored secondary vertex (0, 0, 10) and the stored momentum (1, 0, 2). -/
theorem trackJpsi_has_stored_position_and_momentum :
    (toyRoutines.df2 toyJpsi.index0.par toyJpsi.index1.par).pca = ⟨0, 0, 7⟩ ∧
      (toyRoutines.df2 toyJpsi.index0.par toyJpsi.index1.par).track0.mom = ⟨0, 0, 1⟩ ∧
      (toyRoutines.df2 toyJpsi.index0.par toyJpsi.index1.par).track1.mom = ⟨0, 0, 1⟩ ∧
      (processRun toyRoutines toyConfig toyCollision [toyJpsi] [toyTrack 2 1 5]).calls.map
          (fun c => (c.trackJpsi.track.pos, c.trackJpsi.track.mom)) =
        [(⟨0, 0, 10⟩, ⟨1, 0, 2⟩)] := by
  decide

/-- C10, amended: the pseudo-track takes its position and momentum from the secondary
vertex and momentum stored in the record of the composite, and only its covariance from the
re-fit of the two prongs; apart from its return value and that covariance, nothing the
first-stage fitter reports (PCA position, chi2, propagated prongs) reaches the output. -/
theorem trackJpsi_from_stored_record_and_refit_cov (E : Routines) (cfg : Config)
    (collision : Collision) (jpsiCands : List JpsiCand) (tracks : List Track)
    (c : JpsiCand) (fit2 : FitResult)
    (pca : TrackParCov → TrackParCov → Vec3) (chi2 : TrackParCov → TrackParCov → Int)
    (track0 track1 : TrackParCov → TrackParCov → TrackParCov) :
    (buildTrackJpsi E cfg c fit2).track.pos =
        ⟨c.xSecondaryVertex, c.ySecondaryVertex, c.zSecondaryVertex⟩ ∧
      (buildTrackJpsi E cfg c fit2).track.mom = ⟨c.px, c.py, c.pz⟩ ∧
      (buildTrackJpsi E cfg c fit2).track.cov = fit2.cov ∧
      processRun (E.withFirstFitKinematics pca chi2 track0 track1) cfg collision jpsiCands
          tracks =
        processRun E cfg collision jpsiCands tracks := by
  refine ⟨rfl, rfl, rfl, ?_⟩
  unfold processRun
  rw [jpsiStep_withFirstFitKinematics]

/-! ## MC matching: auxiliary facts -/

theorem toInt8_flag (k : Nat) (hk : k < 7) :
    toInt8 ((1 <<< k : Nat) : Int) = ((1 <<< k : Nat) : Int) ∧
      toInt8 ((1 <<< k : Nat) : Int) ≠ 0 := by
  interval_cases k <;> decide

theorem recBody_row_init (R : RecoDecay) (cfg : MCConfig) (ps : List McParticle) (v : Vars)
    (c : HfCandChic) :
    (recBody R cfg ps v c).row = (recBody R cfg ps Vars.init c).row := by
  unfold recBody Vars.row Vars.init
  simp only []

theorem recBody_row (R : RecoDecay) (cfg : MCConfig) (ps : List McParticle) (v : Vars)
    (c : HfCandChic) (hk : cfg.ChicToJpsiGamma < 7) :
    (recBody R cfg ps v c).row =
      if matchIndex R ps c > -1 then
        { flag := ((1 <<< cfg.ChicToJpsiGamma : Nat) : Int)
          origin := originOf R cfg ps (matchIndex R ps c)
          channel := 0 }
      else { flag := 0, origin := 0, channel := 0 } := by
  obtain ⟨h1, h2⟩ := toInt8_flag cfg.ChicToJpsiGamma hk
  unfold recBody Vars.row matchIndex originOf
  by_cases hm : (R.getMatchedMCRec ps (arrayDaughters c) 20443
      [kPiPlus, kElectron, -kElectron] true 2).1 > -1
  · have h3 : ((1 <<< cfg.ChicToJpsiGamma : Nat) : Int) ≠ 0 := h1 ▸ h2
    simp only [hm, if_true, h1, ne_eq, h3, not_false_eq_true]
  · simp [hm]

theorem recLoop_rows (R : RecoDecay) (cfg : MCConfig) (ps : List McParticle)
    (cands : List HfCandChic) (st : MCState) :
    (cands.foldl (recStep R cfg ps) st).rowsRec =
        st.rowsRec ++ cands.map (fun c => (recBody R cfg ps Vars.init c).row) ∧
      (cands.foldl (recStep R cfg ps) st).rowsGen = st.rowsGen := by
  induction cands generalizing st with
  | nil => simp
  | cons c cs ih =>
    rw [List.foldl_cons]
    obtain ⟨h1, h2⟩ := ih (recStep R cfg ps st c)
    refine ⟨?_, ?_⟩
    · rw [h1]
      simp [recStep, recBody_row_init R cfg ps st.vars c]
    · rw [h2]
      rfl

theorem matchRec_rows (R : RecoDecay) (cfg : MCConfig) (ps : List McParticle)
    (cands : List HfCandChic) :
    (matchRec R cfg cands ps).rowsRec =
        cands.map (fun c => (recBody R cfg ps Vars.init c).row) ∧
      (matchRec R cfg cands ps).rowsGen = [] := by
  have := recLoop_rows R cfg ps cands { vars := Vars.init, rowsRec := [], rowsGen := [] }
  simpa [matchRec] using this

theorem genBody_row_init (R : RecoDecay) (cfg : MCConfig) (ps : List McParticle) (v : Vars)
    (i : Int) :
    (genBody R cfg ps v i).map Vars.row = (genBody R cfg ps Vars.init i).map Vars.row := by
  unfold genBody Vars.row Vars.init
  simp only []
  by_cases h1 : R.isMatchedMCGen ps i 20443 [443, kPiPlus] true = true
  · simp only [h1, if_true]
    cases hd : (R.getDaughters ps i [443] 1)[0]? with
    | none => rfl
    | some d =>
      simp only []
      by_cases h2 : R.isMatchedMCGen ps d 443 [kElectron, -kElectron] true = true
      · simp only [h2, if_true, Option.map_some']
        split_ifs <;> rfl
      · simp only [h2, Option.map_some']
        rfl
  · simp only [h1, Option.map_some']
    rfl

theorem genLoop_rows (R : RecoDecay) (cfg : MCConfig) (ps : List McParticle)
    (l : List Int) (st : MCState)
    (hsafe : ∀ i ∈ l, (genBody R cfg ps Vars.init i).isSome = true) :
    ∃ out, l.foldlM (genStep R cfg ps) st = some out ∧
      out.rowsRec = st.rowsRec ∧
      out.rowsGen.map some =
        st.rowsGen.map some ++ l.map (fun i => (genBody R cfg ps Vars.init i).map Vars.row) := by
  induction l generalizing st with
  | nil => exact ⟨st, rfl, rfl, by simp⟩
  | cons i is ih =>
    have hi := hsafe i (List.mem_cons_self _ _)
    have hrow := genBody_row_init R cfg ps st.vars i
    cases hv0 : genBody R cfg ps Vars.init i with
    | none => simp [hv0] at hi
    | some v0 =>
      cases hv : genBody R cfg ps st.vars i with
      | none => simp [hv, hv0] at hrow
      | some v =>
        rw [hv, hv0] at hrow
        simp only [Option.map_some', Option.some.injEq] at hrow
        obtain ⟨out, ho, hr, hg⟩ :=
          ih { st with vars := v, rowsGen := st.rowsGen ++ [v.row] }
            (fun j hj => hsafe j (List.mem_cons_of_mem _ hj))
        refine ⟨out, ?_, hr, ?_⟩
        · rw [List.foldlM_cons]
          simp only [genStep, hv, Option.map_some']
          exact ho
        · rw [hg]
          simp [hrow, hv0]

theorem genBody_isSome_of_safe (R : RecoDecay) (cfg : MCConfig) (ps : List McParticle)
    (v : Vars) (i : Int)
    (h : R.isMatchedMCGen ps i 20443 [443, kPiPlus] true = true →
      R.getDaughters ps i [443] 1 ≠ []) :
    (genBody R cfg ps v i).isSome = true := by
  unfold genBody
  simp only []
  by_cases h1 : R.isMatchedMCGen ps i 20443 [443, kPiPlus] true = true
  · have hne := h h1
    cases hd : R.getDaughters ps i [443] 1 with
    | nil => exact absurd hd hne
    | cons d ds =>
      simp only [h1, if_true, List.getElem?_cons_zero]
      split_ifs <;> rfl
  · simp [h1]

theorem processMC_rows (R : RecoDecay) (cfg : MCConfig) (cands : List HfCandChic)
    (ps : List McParticle)
    (hsafe : ∀ i ∈ particleIndices ps, (genBody R cfg ps Vars.init i).isSome = true) :
    ∃ out, HFCandidateCreatorChicMC.process R cfg cands ps = some out ∧
      out.rowsRec = cands.map (fun c => (recBody R cfg ps Vars.init c).row) ∧
      out.rowsGen.map some = genRowsAlone R cfg ps := by
  obtain ⟨out, ho, hr, hg⟩ :=
    genLoop_rows R cfg ps (particleIndices ps) (matchRec R cfg cands ps) hsafe
  obtain ⟨m1, m2⟩ := matchRec_rows R cfg ps cands
  refine ⟨out, ho, by rw [hr, m1], ?_⟩
  rw [hg, m2]
  simp [genRowsAlone]

/-! ## MC matching: the routines of the specification -/

theorem isPerm_pair (l : List Int) (a b : Int) :
    l.isPerm [a, b] = true ↔ l = [a, b] ∨ l = [b, a] := by
  rw [List.isPerm_iff]
  constructor
  · intro h
    have hl := h.length_eq
    match l, hl with
    | [x, y], _ =>
      have hx : x ∈ [a, b] := (h.mem_iff).1 (List.mem_cons_self _ _)
      simp only [List.mem_cons, List.mem_singleton, List.not_mem_nil, or_false] at hx
      rcases hx with rfl | rfl
      · have := List.perm_singleton.1 h.cons_inv
        left; rw [this]
      · have h2 : [x, y].Perm [x, a] := h.trans (List.Perm.swap x a [])
        have := List.perm_singleton.1 h2.cons_inv
        right; rw [this]
  · rintro (rfl | rfl)
    · exact List.Perm.refl _
    · exact List.Perm.swap a b []

theorem natAbs_eq_443 (x : Int) : (x.natAbs = 443) ↔ (x = 443 ∨ x = -443) := by omega

theorem isPerm_pair_eq (l : List Int) (a b : Int) :
    l.isPerm [a, b] =
      match l with
      | [x, y] => (x == a && y == b) || (x == b && y == a)
      | _ => false := by
  rw [Bool.eq_iff_iff, isPerm_pair]
  match l with
  | [] => simp
  | [x] => simp
  | [x, y] => simp
  | x :: y :: z :: r => simp

theorem particleAt_natCast (ps : List McParticle) (i : Nat) : particleAt ps (i : Int) = ps[i]? := by
  simp [particleAt]

theorem isMatchedMCGen_pair (ps : List McParticle) (i : Nat) (pdg s1 s2 : Int) (acc : Bool) :
    isMatchedMCGen ps (i : Int) pdg [s1, s2] acc =
      match ps[i]? with
      | none => false
      | some p =>
        match p.daughters with
        | [a, b] =>
          (p.pdgCode == pdg &&
            ((pdgAt ps a == s1 && pdgAt ps b == s2) || (pdgAt ps a == s2 && pdgAt ps b == s1))) ||
          (acc && p.pdgCode == -pdg &&
            ((pdgAt ps a == -s1 && pdgAt ps b == -s2) ||
              (pdgAt ps a == -s2 && pdgAt ps b == -s1)))
        | _ => false := by
  unfold isMatchedMCGen daughterCodes
  rw [particleAt_natCast]
  cases hp : ps[i]? with
  | none => rfl
  | some p =>
    simp only [List.map_cons, List.map_nil, isPerm_pair_eq]
    match hd : p.daughters with
    | [] => simp
    | [x] => simp
    | [x, y] => simp
    | x :: y :: z :: r => simp

theorem isMatchedMCGen_jpsi (ps : List McParticle) (j : Nat) :
    isMatchedMCGen ps (j : Int) 443 [kElectron, -kElectron] true = isJpsiToEE ps j := by
  rw [isMatchedMCGen_pair]
  unfold isJpsiToEE kElectron
  cases hp : ps[j]? with
  | none => rfl
  | some q =>
    rcases hd : q.daughters with _ | ⟨x, _ | ⟨y, _ | ⟨z, r⟩⟩⟩
    · simp [hd]
    · simp [hd]
    · simp only [hd, Bool.true_and, neg_neg]
      cases (q.pdgCode == 443) <;> cases (q.pdgCode == -443) <;>
        cases (pdgAt ps x == 11) <;> cases (pdgAt ps y == -11) <;>
        cases (pdgAt ps x == -11) <;> cases (pdgAt ps y == 11) <;> rfl
    · simp [hd]

theorem descendants_one (ps : List McParticle) (i : Nat) :
    descendants ps 1 i = match ps[i]? with
      | none => []
      | some p => p.daughters := by
  unfold descendants
  cases ps[i]? with
  | none => rfl
  | some p =>
    simp only []
    induction p.daughters with
    | nil => rfl
    | cons d ds ih => simp [List.flatMap_cons, descendants, ih]

theorem getDaughters_jpsi (ps : List McParticle) (i : Nat) :
    getDaughters ps (i : Int) [443] 1 =
      match ps[i]? with
      | none => []
      | some p =>
        (p.daughters.filter fun d => pdgAt ps d == 443 || pdgAt ps d == -443).map Int.ofNat := by
  unfold getDaughters
  have h1 : (1 : Int).toNat = 1 := rfl
  simp only [Int.ofNat_zero_le, if_true, Int.toNat_ofNat, h1, descendants_one]
  cases ps[i]? with
  | none => rfl
  | some p =>
    simp only []
    congr 1
    apply List.filter_congr
    intro d _
    rw [Bool.eq_iff_iff]
    simp [natAbs_eq_443]

theorem code_cases (x : Int) :
    x = 443 ∨ x = -443 ∨ x = 211 ∨ x = -211 ∨ (x ≠ 443 ∧ x ≠ -443 ∧ x ≠ 211 ∧ x ≠ -211) := by
  omega

theorem root_cases (x : Int) : x = 20443 ∨ x = -20443 ∨ (x ≠ 20443 ∧ x ≠ -20443) := by
  omega

theorem ite_some {α : Type} (c : Bool) (A B : α) :
    (if c = true then some A else some B) = some (if c = true then A else B) := by
  cases c <;> rfl

theorem genFlagTest {α : Type} (ps : List McParticle) (i : Nat) (A B : α) :
    (if isMatchedMCGen ps (i : Int) 20443 [443, kPiPlus] true = true then
      match (getDaughters ps (i : Int) [443] 1)[0]? with
      | none => none
      | some d =>
        if isMatchedMCGen ps d 443 [kElectron, -kElectron] true = true then some A else some B
    else some B) = some (if isChicChainRoot ps i = true then A else B) := by
  rw [isMatchedMCGen_pair, getDaughters_jpsi]
  unfold isChicChainRoot kPiPlus
  cases hp : ps[i]? with
  | none => simp
  | some p =>
    rcases hd : p.daughters with _ | ⟨a, _ | ⟨b, _ | ⟨z, r⟩⟩⟩
    · simp [hd]
    · simp [hd]
    · simp only [hd]
      have ja := isMatchedMCGen_jpsi ps a
      have jb := isMatchedMCGen_jpsi ps b
      rcases root_cases p.pdgCode with c | c | ⟨c1, c2⟩ <;>
        rcases code_cases (pdgAt ps a) with x | x | x | x | ⟨x1, x2, x3, x4⟩ <;>
        rcases code_cases (pdgAt ps b) with y | y | y | y | ⟨y1, y2, y3, y4⟩ <;>
        simp [*, List.filter_cons, ite_some]
    · simp [hd]

theorem genBody_spec (n : Nat)
    (mrec : List McParticle → List TrackMC → Int → List Int → Bool → Int → Int × Int)
    (cfg : MCConfig) (ps : List McParticle) (v : Vars) (i : Nat)
    (hk : cfg.ChicToJpsiGamma < 7) :
    (genBody (specRecoDecay n mrec) cfg ps v (i : Int)).map Vars.row =
      some (if isChicChainRoot ps i = true then
        { flag := ((1 <<< cfg.ChicToJpsiGamma : Nat) : Int)
          origin := originOf (specRecoDecay n mrec) cfg ps (i : Int)
          channel := 0 }
      else { flag := 0, origin := 0, channel := 0 }) := by
  obtain ⟨h1, h2⟩ := toInt8_flag cfg.ChicToJpsiGamma hk
  have h3 : ((1 <<< cfg.ChicToJpsiGamma : Nat) : Int) ≠ 0 := h1 ▸ h2
  unfold genBody
  simp only [specRecoDecay]
  rw [genFlagTest]
  by_cases hr : isChicChainRoot ps i = true
  · simp only [hr, if_true, Option.map_some', h1, ne_eq, h3, not_false_eq_true]
    rfl
  · simp only [hr, Option.map_some']
    rfl

theorem gen_rows_spec (n : Nat)
    (mrec : List McParticle → List TrackMC → Int → List Int → Bool → Int → Int × Int)
    (cfg : MCConfig) (cands : List HfCandChic) (ps : List McParticle)
    (hk : cfg.ChicToJpsiGamma < 7) :
    ∃ out, HFCandidateCreatorChicMC.process (specRecoDecay n mrec) cfg cands ps = some out ∧
      out.rowsRec =
        cands.map (fun c => (recBody (specRecoDecay n mrec) cfg ps Vars.init c).row) ∧
      out.rowsGen = (List.range ps.length).map (fun i =>
        if isChicChainRoot ps i = true then
          { flag := ((1 <<< cfg.ChicToJpsiGamma : Nat) : Int)
            origin := originOf (specRecoDecay n mrec) cfg ps (i : Int)
            channel := 0 }
        else { flag := 0, origin := 0, channel := 0 }) := by
  have hsafe : ∀ i ∈ particleIndices ps,
      (genBody (specRecoDecay n mrec) cfg ps Vars.init i).isSome = true := by
    intro i hi
    simp only [particleIndices, List.mem_map, List.mem_range] at hi
    obtain ⟨j, _, rfl⟩ := hi
    have := genBody_spec n mrec cfg ps Vars.init j hk
    cases hg : genBody (specRecoDecay n mrec) cfg ps Vars.init (Int.ofNat j) with
    | none =>
      rw [show (Int.ofNat j) = (j : Int) from rfl] at hg
      rw [hg] at this
      simp at this
    | some v => rfl
  obtain ⟨out, ho, hr, hg⟩ := processMC_rows (specRecoDecay n mrec) cfg cands ps hsafe
  refine ⟨out, ho, hr, ?_⟩
  apply List.map_injective_iff.2 (Option.some_injective _)
  rw [hg, genRowsAlone, particleIndices, List.map_map, List.map_map]
  apply List.map_congr_left
  intro j _
  exact genBody_spec n mrec cfg ps Vars.init j hk

theorem motherWithin_found_iff (ps : List McParticle) (n i : Nat) :
    motherWithin ps 5 true n i > -1 ↔
      ((List.range n).any fun g => heavyAt ps i (g + 1)) = true := by
  induction n generalizing i with
  | zero => simp [motherWithin]
  | succ n ih =>
    rw [List.range_succ_eq_map, List.any_cons, List.any_map]
    unfold motherWithin
    cases hp : ps[i]? with
    | none => simp [heavyAt, ancestor, hp]
    | some p =>
      cases hm : p.mother with
      | none => simp [heavyAt, ancestor, hp, hm]
      | some m =>
        have hstep : ∀ g, heavyAt ps i (g + 1 + 1) = heavyAt ps m (g + 1) := by
          intro g
          simp [heavyAt, ancestor, hp, hm]
        have h1 : heavyAt ps i (0 + 1) = (pdgAt ps m == 5 || pdgAt ps m == -5) := by
          simp [heavyAt, ancestor, hp, hm]
        have hany : (List.range n).any ((fun g => heavyAt ps i (g + 1)) ∘ Nat.succ) =
            (List.range n).any (fun g => heavyAt ps m (g + 1)) := by
          congr 1
          funext g
          exact hstep g
        have hpos : ((m : Int) > -1) := by omega
        simp only [hm, h1, hany, true_and]
        by_cases h5 : pdgAt ps m = 5
        · simp [h5, hpos]
        · by_cases h5n : pdgAt ps m = -5
          · simp [h5n, hpos]
          · simp only [h5, h5n, or_self, if_false]
            rw [ih m]
            simp [h5, h5n]

theorem getMother_found_iff (ps : List McParticle) (n : Nat) (i : Int) :
    getMother n ps i 5 true > -1 ↔ heavyAncestorWithin ps n i = true := by
  unfold getMother heavyAncestorWithin
  by_cases hi : 0 ≤ i
  · simp only [hi, if_true, decide_True, Bool.true_and]
    exact motherWithin_found_iff ps n i.toNat
  · simp [hi]

theorem originOf_spec (n : Nat)
    (mrec : List McParticle → List TrackMC → Int → List Int → Bool → Int → Int × Int)
    (cfg : MCConfig) (ps : List McParticle) (i : Int) :
    originOf (specRecoDecay n mrec) cfg ps i =
      toInt8 (if heavyAncestorWithin ps n i = true then cfg.NonPrompt else cfg.Prompt) := by
  unfold originOf
  simp only [specRecoDecay]
  by_cases h : heavyAncestorWithin ps n i = true
  · rw [if_pos ((getMother_found_iff ps n i).2 h), if_pos h]
  · rw [if_neg (fun hg => h ((getMother_found_iff ps n i).1 hg)), if_neg h]

theorem genLoop_rowsRec (R : RecoDecay) (cfg : MCConfig) (ps : List McParticle)
    (l : List Int) (st out : MCState) (h : l.foldlM (genStep R cfg ps) st = some out) :
    out.rowsRec = st.rowsRec := by
  induction l generalizing st with
  | nil =>
    simp only [List.foldlM_nil] at h
    cases h
    rfl
  | cons i is ih =>
    rw [List.foldlM_cons] at h
    cases hv : genBody R cfg ps st.vars i with
    | none => simp [genStep, hv] at h
    | some v =>
      simp only [genStep, hv, Option.map_some', Option.bind_eq_bind, Option.some_bind] at h
      have h2 := ih _ h
      exact h2

theorem matchRec_rows_closed (R : RecoDecay) (cfg : MCConfig) (cands : List HfCandChic)
    (ps : List McParticle) (hk : cfg.ChicToJpsiGamma < 7) :
    (matchRec R cfg cands ps).rowsRec =
      cands.map (fun c =>
        if matchIndex R ps c > -1 then
          { flag := ((1 <<< cfg.ChicToJpsiGamma : Nat) : Int)
            origin := originOf R cfg ps (matchIndex R ps c)
            channel := 0 }
        else { flag := 0, origin := 0, channel := 0 }) := by
  rw [(matchRec_rows R cfg ps cands).1]
  apply List.map_congr_left
  intro c _
  exact recBody_row R cfg ps Vars.init c hk

/-! ## MC matching: flags, origin and alignment of the output rows -/

/-- C6: with `ChicToJpsiGamma < 7` (so that `1 << ChicToJpsiGamma` fits `int8_t`), the row
filled for a reconstructed candidate has flag `1 << ChicToJpsiGamma` when
`getMatchedMCRec` returns an index above -1, and is (0, 0, 0) otherwise; the loop over the
generated particles leaves these rows as they are. -/
theorem rec_flag_follows_daughter_match (R : RecoDecay) (cfg : MCConfig)
    (cands : List HfCandChic) (ps : List McParticle) (hk : cfg.ChicToJpsiGamma < 7) :
    (matchRec R cfg cands ps).rowsRec =
        cands.map (fun c =>
          if matchIndex R ps c > -1 then
            { flag := ((1 <<< cfg.ChicToJpsiGamma : Nat) : Int)
              origin := originOf R cfg ps (matchIndex R ps c)
              channel := 0 }
          else { flag := 0, origin := 0, channel := 0 }) ∧
      (HFCandidateCreatorChicMC.process R cfg cands ps).map MCState.rowsRec =
        (HFCandidateCreatorChicMC.process R cfg cands ps).map (fun _ => (matchRec R cfg cands ps).rowsRec) := by
  refine ⟨matchRec_rows_closed R cfg cands ps hk, ?_⟩
  · cases h : HFCandidateCreatorChicMC.process R cfg cands ps with
    | none => rfl
    | some out =>
      simp only [Option.map_some', Option.some.injEq]
      exact genLoop_rowsRec R cfg ps _ _ out h

/-- Witness for C6: a candidate matched to the chi_c of the example tree gets flag 1, an
unmatched candidate gets the row (0, 0, 0). -/
theorem rec_flag_follows_daughter_match_witness :
    toyMCConfig.ChicToJpsiGamma < 7 ∧
      (matchRec (specRecoDecay 2 toyMatchedMCRec) toyMCConfig [toyCand 3, toyCand (-1)]
        toyChain).rowsRec =
        [{ flag := 1, origin := 1, channel := 0 }, { flag := 0, origin := 0, channel := 0 }] :=
  ⟨by decide,
   (rec_flag_follows_daughter_match (specRecoDecay 2 toyMatchedMCRec) toyMCConfig
      [toyCand 3, toyCand (-1)] toyChain (by decide)).1.trans (by decide)⟩

/-- C7: on the matching routines of the specification and with `ChicToJpsiGamma < 7`, the
loop over the generated particles completes, fills one row per particle, and the flag of
particle `i` is `1 << ChicToJpsiGamma` exactly when `i` is the root of the expected chain
and 0 otherwise. The flags are all 0 for the chain with the pi+ swapped for a K+, for the
chain one generation too deep, for an unrelated tree and for the empty table. -/
theorem gen_flag_iff_chain_root (n : Nat)
    (mrec : List McParticle → List TrackMC → Int → List Int → Bool → Int → Int × Int)
    (cfg : MCConfig) (cands : List HfCandChic) (ps : List McParticle)
    (hk : cfg.ChicToJpsiGamma < 7) :
    (∃ out, HFCandidateCreatorChicMC.process (specRecoDecay n mrec) cfg cands ps = some out ∧
        out.rowsGen.length = ps.length ∧
        out.rowsGen.map (fun r => r.flag) = (List.range ps.length).map (fun i =>
          if isChicChainRoot ps i = true then ((1 <<< cfg.ChicToJpsiGamma : Nat) : Int)
          else 0)) ∧
      (HFCandidateCreatorChicMC.process (specRecoDecay n mrec) cfg cands toySwapped).map
          (fun o => o.rowsGen.map (fun r => r.flag)) = some [0, 0, 0, 0, 0] ∧
      (HFCandidateCreatorChicMC.process (specRecoDecay n mrec) cfg cands toyTooDeep).map
          (fun o => o.rowsGen.map (fun r => r.flag)) = some [0, 0, 0, 0, 0, 0] ∧
      (HFCandidateCreatorChicMC.process (specRecoDecay n mrec) cfg cands toyUnrelated).map
          (fun o => o.rowsGen.map (fun r => r.flag)) = some [0, 0, 0] ∧
      (HFCandidateCreatorChicMC.process (specRecoDecay n mrec) cfg cands []).map
          (fun o => o.rowsGen.map (fun r => r.flag)) = some [] := by
  have key : ∀ qs : List McParticle,
      (HFCandidateCreatorChicMC.process (specRecoDecay n mrec) cfg cands qs).map
          (fun o => o.rowsGen.map (fun r => r.flag)) =
        some ((List.range qs.length).map (fun i =>
          if isChicChainRoot qs i = true then ((1 <<< cfg.ChicToJpsiGamma : Nat) : Int)
          else 0)) := by
    intro qs
    obtain ⟨out, ho, _, hg⟩ := gen_rows_spec n mrec cfg cands qs hk
    rw [ho, Option.map_some', hg, List.map_map]
    congr 1
    apply List.map_congr_left
    intro i _
    simp only [Function.comp]
    split_ifs <;> rfl
  refine ⟨?_, ?_, ?_, ?_, ?_⟩
  · obtain ⟨out, ho, _, hg⟩ := gen_rows_spec n mrec cfg cands ps hk
    have hkey := key ps
    rw [ho, Option.map_some', Option.some.injEq] at hkey
    exact ⟨out, ho, by rw [hg]; simp, hkey⟩
  · rw [key]
    rfl
  · rw [key]
    rfl
  · rw [key]
    rfl
  · rw [key]
    rfl

/-- Witness for C7: in the example tree only the chi_c (index 3) gets the flag. -/
theorem gen_flag_iff_chain_root_witness :
    toyMCConfig.ChicToJpsiGamma < 7 ∧
      (HFCandidateCreatorChicMC.process (specRecoDecay 2 toyMatchedMCRec) toyMCConfig [] toyChain).map
          (fun o => o.rowsGen.map (fun r => r.flag)) = some [0, 0, 0, 1, 0, 0, 0, 0] ∧
      (HFCandidateCreatorChicMC.process (specRecoDecay 2 toyMatchedMCRec) toyMCConfig [] toySwapped).map
          (fun o => o.rowsGen.map (fun r => r.flag)) = some [0, 0, 0, 0, 0] :=
  ⟨by decide, by decide,
   (gen_flag_iff_chain_root 2 toyMatchedMCRec toyMCConfig [] toyChain (by decide)).2.1⟩

/-- C8: on the matching routines of the specification (ancestry walked up to
`maxGenerations` generations) and with `ChicToJpsiGamma < 7`, a matched reconstructed
candidate and a generated root of the expected chain get origin `NonPrompt` when a
heavy-flavour ancestor lies within `maxGenerations` generations and `Prompt` otherwise,
unmatched ones get origin 0; in particular a chain root whose heavy-flavour ancestor sits
at generation `maxGenerations + 1`, with none nearer, gets `Prompt`. -/
theorem origin_by_bounded_ancestry (n : Nat)
    (mrec : List McParticle → List TrackMC → Int → List Int → Bool → Int → Int × Int)
    (cfg : MCConfig) (cands : List HfCandChic) (ps : List McParticle)
    (hk : cfg.ChicToJpsiGamma < 7) :
    (matchRec (specRecoDecay n mrec) cfg cands ps).rowsRec.map (fun r => r.origin) =
        cands.map (fun c =>
          if matchIndex (specRecoDecay n mrec) ps c > -1 then
            toInt8 (if heavyAncestorWithin ps n (matchIndex (specRecoDecay n mrec) ps c) = true
              then cfg.NonPrompt else cfg.Prompt)
          else 0) ∧
      ∃ out, HFCandidateCreatorChicMC.process (specRecoDecay n mrec) cfg cands ps = some out ∧
        out.rowsGen.map (fun r => r.origin) = (List.range ps.length).map (fun i =>
          if isChicChainRoot ps i = true then
            toInt8 (if heavyAncestorWithin ps n (i : Int) = true then cfg.NonPrompt
              else cfg.Prompt)
          else 0) ∧
        ∀ j a : Nat, j < ps.length → isChicChainRoot ps j = true →
          ancestor ps (n + 1) j = some a → pdgAt ps a = 5 →
          heavyAncestorWithin ps n (j : Int) = false →
          out.rowsGen[j]? = some
            { flag := ((1 <<< cfg.ChicToJpsiGamma : Nat) : Int)
              origin := toInt8 cfg.Prompt
              channel := 0 } := by
  refine ⟨?_, ?_⟩
  · rw [matchRec_rows_closed (specRecoDecay n mrec) cfg cands ps hk, List.map_map]
    apply List.map_congr_left
    intro c _
    simp only [Function.comp]
    split_ifs <;> simp_all [originOf_spec]
  · obtain ⟨out, ho, _, hg⟩ := gen_rows_spec n mrec cfg cands ps hk
    refine ⟨out, ho, ?_, ?_⟩
    · rw [hg, List.map_map]
      apply List.map_congr_left
      intro i _
      simp only [Function.comp]
      split_ifs <;> simp_all [originOf_spec]
    · intro j a hj hroot _ _ hnone
      rw [hg, List.getElem?_map, List.getElem?_range hj]
      simp [hroot, originOf_spec, hnone]

/-- Witness for C8: in the example tree the b quark is three generations above the chi_c;
with the bound at 2 the chi_c is Prompt (1), with the bound at 3 it is NonPrompt (2). -/
theorem origin_by_bounded_ancestry_witness :
    toyMCConfig.ChicToJpsiGamma < 7 ∧
      (3 < toyChain.length ∧ isChicChainRoot toyChain 3 = true ∧
        ancestor toyChain (2 + 1) 3 = some 0 ∧ pdgAt toyChain 0 = 5 ∧
        heavyAncestorWithin toyChain 2 ((3 : Nat) : Int) = false) ∧
      (HFCandidateCreatorChicMC.process (specRecoDecay 2 toyMatchedMCRec) toyMCConfig [toyCand 3] toyChain).map
          (fun o => (o.rowsRec, o.rowsGen[3]?)) =
        some ([{ flag := 1, origin := 1, channel := 0 }],
          some { flag := 1, origin := 1, channel := 0 }) ∧
      (HFCandidateCreatorChicMC.process (specRecoDecay 3 toyMatchedMCRec) toyMCConfig [toyCand 3] toyChain).map
          (fun o => (o.rowsRec, o.rowsGen[3]?)) =
        some ([{ flag := 1, origin := 2, channel := 0 }],
          some { flag := 1, origin := 2, channel := 0 }) ∧
      ∃ out, HFCandidateCreatorChicMC.process (specRecoDecay 2 toyMatchedMCRec) toyMCConfig [toyCand 3] toyChain =
          some out ∧
        out.rowsGen[3]? = some { flag := 1, origin := 1, channel := 0 } := by
  refine ⟨by decide, by decide, by decide, by decide, ?_⟩
  obtain ⟨out, ho, _, hb⟩ :=
    (origin_by_bounded_ancestry 2 toyMatchedMCRec toyMCConfig [toyCand 3] toyChain
      (by decide)).2
  exact ⟨out, ho, hb 3 0 (by decide) (by decide) (by decide) (by decide) (by decide)⟩

/-- C9: whenever the generated-side matcher and the daughter list agree (a particle that
passes the chi_c test has a non-empty list from `getDaughters`), `process` completes, the
reconstructed-side output has one row per candidate and the generated-side output one row
per generated particle, and the i-th row of each is the row the loop body gives for the
i-th element taken alone, from the initial values of the variables. -/
theorem match_rows_index_aligned (R : RecoDecay) (cfg : MCConfig) (cands : List HfCandChic)
    (ps : List McParticle)
    (hsafe : ∀ i ∈ particleIndices ps,
      R.isMatchedMCGen ps i 20443 [443, kPiPlus] true = true →
        R.getDaughters ps i [443] 1 ≠ []) :
    ∃ out, HFCandidateCreatorChicMC.process R cfg cands ps = some out ∧
      out.rowsRec.length = cands.length ∧
      out.rowsGen.length = ps.length ∧
      out.rowsRec = cands.map (fun c => (recBody R cfg ps Vars.init c).row) ∧
      out.rowsGen.map some = genRowsAlone R cfg ps := by
  obtain ⟨out, ho, hr, hg⟩ := processMC_rows R cfg cands ps
    (fun i hi => genBody_isSome_of_safe R cfg ps Vars.init i (hsafe i hi))
  refine ⟨out, ho, by rw [hr, List.length_map], ?_, hr, hg⟩
  have := congrArg List.length hg
  simpa [genRowsAlone, particleIndices] using this

/-- Witness for C9: two candidates and the eight particles of the example tree give two
and eight rows. -/
theorem match_rows_index_aligned_witness :
    (∀ i ∈ particleIndices toyChain,
      (specRecoDecay 2 toyMatchedMCRec).isMatchedMCGen toyChain i 20443 [443, kPiPlus] true
          = true →
        (specRecoDecay 2 toyMatchedMCRec).getDaughters toyChain i [443] 1 ≠ []) ∧
      ∃ out, HFCandidateCreatorChicMC.process (specRecoDecay 2 toyMatchedMCRec) toyMCConfig
          [toyCand 3, toyCand (-1)] toyChain = some out ∧
        out.rowsRec.length = 2 ∧ out.rowsGen.length = 8 := by
  refine ⟨by decide, ?_⟩
  obtain ⟨out, ho, h1, h2, _, _⟩ :=
    match_rows_index_aligned (specRecoDecay 2 toyMatchedMCRec) toyMCConfig
      [toyCand 3, toyCand (-1)] toyChain (by decide)
  exact ⟨out, ho, h1, h2⟩

/-! ## Jet finder task: the list handed to the jet finder -/

theorem toInt32_of_fits (v : Int) (h : -2147483648 ≤ v ∧ v < 2147483648) : toInt32 v = v := by
  unfold toInt32
  omega

theorem setBackUserIndex_emplaceBack (l : List PseudoJet) (px py pz : Int) (E : SqrtValue)
    (i : Int) :
    setBackUserIndex (emplaceBack l px py pz E) i =
      l ++ [{ px := px, py := py, pz := pz, E := E, user_index := i }] := by
  simp [setBackUserIndex, emplaceBack]

theorem trackLoop_input (jetFinder : JetFinder) (c : D0Cand) (tracks : List AodTrack)
    (l : List PseudoJet)
    (hidx : ∀ t ∈ tracks, -2147483648 ≤ t.globalIndex ∧ t.globalIndex < 2147483648) :
    tracks.foldl (addTrack jetFinder c.index0Id c.index1Id) l =
      l ++ (tracks.filter (fun t => !isDaughter c t)).map (trackEntry jetFinder) := by
  induction tracks generalizing l with
  | nil => simp
  | cons t ts ih =>
    have ht := hidx t (List.mem_cons_self _ _)
    have hts : ∀ u ∈ ts, -2147483648 ≤ u.globalIndex ∧ u.globalIndex < 2147483648 :=
      fun u hu => hidx u (List.mem_cons_of_mem _ hu)
    rw [List.foldl_cons, ih _ hts]
    unfold addTrack
    by_cases hd : c.index0Id = t.globalIndex ∨ c.index1Id = t.globalIndex
    · have hd2 : isDaughter c t = true := by
        unfold isDaughter
        rcases hd with h | h
        · simp [h]
        · simp [h]
      simp [hd, hd2, List.filter_cons]
    · have hd2 : isDaughter c t = false := by
        unfold isDaughter
        simp only [decide_eq_false_iff_not]
        rintro (h | h)
        · exact hd (Or.inl h.symm)
        · exact hd (Or.inr h.symm)
      simp only [hd, if_false, setBackUserIndex_emplaceBack, toInt32_of_fits _ ht]
      simp [hd2, List.filter_cons, trackEntry]

theorem fillFirstHFJet_handed (jetFinder : JetFinder) (collision : Collision)
    (st : JetTaskState) : (fillFirstHFJet jetFinder collision st).handed = st.handed := by
  unfold fillFirstHFJet
  cases st.jets.find? (fun jet => jet.constituents.any isCandidateConstituent) <;> rfl

theorem candidateStep_handed (jetFinder : JetFinder) (R : D0Routines) (collision : Collision)
    (tracks : List AodTrack) (st : JetTaskState) (c : D0Cand)
    (hidx : ∀ t ∈ tracks, -2147483648 ≤ t.globalIndex ∧ t.globalIndex < 2147483648) :
    (candidateStep jetFinder R collision tracks st c).handed =
      st.handed ++ [expectedInput jetFinder R tracks c] := by
  unfold candidateStep
  simp only [fillFirstHFJet_handed, trackLoop_input jetFinder c tracks [] hidx,
    setBackUserIndex_emplaceBack, List.nil_append]
  unfold expectedInput candidateUserIndex
  by_cases h1 : c.isSelD0 = 1 ∧ c.isSelD0bar = 0
  · simp [h1]
  · by_cases h2 : c.isSelD0 = 0 ∧ c.isSelD0bar = 1
    · simp [h1, h2]
    · simp [h1, h2]

theorem candidateLoop_handed (jetFinder : JetFinder) (R : D0Routines) (collision : Collision)
    (tracks : List AodTrack) (candidates : List D0Cand) (st : JetTaskState)
    (hidx : ∀ t ∈ tracks, -2147483648 ≤ t.globalIndex ∧ t.globalIndex < 2147483648) :
    (candidates.foldl (candidateStep jetFinder R collision tracks) st).handed =
      st.handed ++ candidates.map (expectedInput jetFinder R tracks) := by
  induction candidates generalizing st with
  | nil => simp
  | cons c cs ih =>
    rw [List.foldl_cons, ih, candidateStep_handed jetFinder R collision tracks st c hidx]
    simp

theorem expectedInput_no_daughter (jetFinder : JetFinder) (R : D0Routines)
    (tracks : List AodTrack) (c : D0Cand) :
    (expectedInput jetFinder R tracks c).dropLast.any (isDaughterEntry c) = false := by
  unfold expectedInput
  rw [List.dropLast_concat]
  rw [Bool.eq_false_iff]
  intro h
  simp only [List.any_eq_true, List.mem_map, List.mem_filter] at h
  obtain ⟨e, ⟨t, ⟨_, ht⟩, rfl⟩, he⟩ := h
  simp only [isDaughterEntry, trackEntry, isDaughter] at he ht
  simp_all

theorem all_zip_map_self {α β : Type} (f : α → β) (P : β × α → Bool) (l : List α) :
    ((l.map f).zip l).all P = l.all (fun a => P (f a, a)) := by
  induction l with
  | nil => rfl
  | cons a as ih => simp [ih]

/-- C11: when the global indices of the tracks fit the `int` user index, each candidate
hands the jet finder exactly one entry per filtered track that is not one of its two
daughters, in track order and with the global index of the track as user index, followed
by one entry for the candidate with user index -1 (D0 only), -2 (D0bar only) or -3 (every
other case); what the member `inputParticles` held before plays no part, and no entry
before the last one carries the index of a daughter. -/
theorem jet_finder_input_excludes_daughters (jetFinder : JetFinder) (R : D0Routines)
    (collision : Collision) (tracks : List AodTrack) (candidates : List D0Cand)
    (st : JetTaskState)
    (hidx : ∀ t ∈ tracks, -2147483648 ≤ t.globalIndex ∧ t.globalIndex < 2147483648) :
    (JetFinderHFTask.process jetFinder R collision tracks candidates st).handed =
        st.handed ++ candidates.map (expectedInput jetFinder R tracks) ∧
      ((((JetFinderHFTask.process jetFinder R collision tracks candidates st).handed.drop
          st.handed.length).zip candidates).all
        (fun lc => !(lc.1.dropLast.any (isDaughterEntry lc.2)))) = true := by
  have h := candidateLoop_handed jetFinder R collision tracks candidates st hidx
  refine ⟨h, ?_⟩
  unfold JetFinderHFTask.process
  rw [h, List.drop_left, all_zip_map_self]
  rw [List.all_eq_true]
  intro c _
  simp [expectedInput_no_daughter]

/-- Witness for C11: tracks 0 to 3 and three candidates with daughters 1 and 2, selected as
D0 only, D0bar only and both; each list holds tracks 0 and 3 and then the candidate, with
user index -1, -2 and -3. -/
theorem jet_finder_input_excludes_daughters_witness :
    (∀ t ∈ [toyAodTrack 0, toyAodTrack 1, toyAodTrack 2, toyAodTrack 3],
        -2147483648 ≤ t.globalIndex ∧ t.globalIndex < 2147483648) ∧
      (JetFinderHFTask.process toyJetFinder toyD0Routines toyCollision
          [toyAodTrack 0, toyAodTrack 1, toyAodTrack 2, toyAodTrack 3]
          [toyD0 1 0, toyD0 0 1, toyD0 1 1] toyJetState).handed.map
        (fun l => l.map (fun e => e.user_index)) = [[0, 3, -1], [0, 3, -2], [0, 3, -3]] := by
  refine ⟨by decide, ?_⟩
  rw [(jet_finder_input_excludes_daughters toyJetFinder toyD0Routines toyCollision
    [toyAodTrack 0, toyAodTrack 1, toyAodTrack 2, toyAodTrack 3]
    [toyD0 1 0, toyD0 0 1, toyD0 1 1] toyJetState (by decide)).1]
  decide

end O2Physics
